import Mathlib

/-!
Shallow embedding of the expected-scan reconciliation and report-assembly core
of the datman repository (src/bin/dm-qc-report.py and src/datman/scan.py),
with theorems settling the frozen claims about it.

External collaborators (the datman.scanid filename parser, the filesystem,
subprocess execution, dm.utils helpers) are modelled as oracle parameters, as
the spec directs; the reconciliation and driver logic itself is translated
line by line from the source.
-/

/-- Python ParseException raised by the external datman.scanid parser. -/
structure ParseException where
  msg : String
deriving DecidableEq, Repr

/-- Errors that can escape the reconciliation and report-driver code paths.
parseErr models datman.scanid.ParseException; keyError models a Python
KeyError from a dict lookup (such as config Sites site); indexError models the
IndexError from indexing an empty list; nameError models the NameError that
evaluating re.sub would raise because dm-qc-report.py never imports re. -/
inductive QcErr where
  | parseErr (e : ParseException)
  | keyError (k : String)
  | indexError
  | nameError
deriving DecidableEq, Repr

/-- The part of a datman identifier this code path uses: parse(id).site. -/
structure Ident where
  site : String
deriving DecidableEq, Repr

/-- Result of the external naming parser dm.scanid.parse_filename: a tuple of
(identifier, tag, series number, description); only the site field of the
identifier is consumed. Per the spec the series number is an integer (the
int() conversion sort_scans applies to the parsed field is folded into this
external-parser model). -/
structure Parsed where
  site : String
  tag : String
  series : Int
  description : String
deriving DecidableEq, Repr

/-- One ExportInfo entry for a tag: Count is the expected scan count and Order
is the optional ordering key from the configuration. -/
structure ExportEntry where
  Count : Int
  Order : Option Int
deriving DecidableEq, Repr

/-- The paths block of the configuration that qc_subject consumes. -/
structure Paths where
  dcm : String
  qc : String
  std : String
deriving DecidableEq, Repr

/-- Project configuration: per-site ExportInfo (each Python dict modelled as an
association list in dict iteration order, keys unique) plus the paths block. -/
structure Config where
  Sites : List (String × List (String × ExportEntry))
  paths : Paths
deriving DecidableEq, Repr

/-- Python dict lookup, modelled on an association list with unique keys. -/
def lookupA {β : Type} (l : List (String × β)) (k : String) : Option β :=
  (l.find? (fun p => p.1 == k)).map Prod.snd

/-- Sequence a fallible computation over a list, stopping at the first error,
exactly as a Python for-loop raising out of the loop would. -/
def exMapList {ε α β : Type} (f : α → Except ε β) : List α → Except ε (List β)
  | [] => .ok []
  | a :: l => do
    let b ← f a
    let bs ← exMapList f l
    .ok (b :: bs)

/-- Comparison used to model the ascending argsort of sort_scans on the parsed
series numbers. -/
def seriesLe (a b : String × Int) : Prop := a.2 ≤ b.2

instance : DecidableRel seriesLe :=
  fun a b => inferInstanceAs (Decidable (a.2 ≤ b.2))

/-- Model of sort_scans (dm-qc-report.py lines 135 to 146): parse every
filename and order the list ascending by parsed series number. A filename the
external parser rejects raises ParseException out of the loop. The source
sorts with numpy argsort whose default quicksort leaves the order of equal
series numbers unspecified; this model sorts stably, which agrees with the
source whenever series numbers are distinct (they are expected unique per
subject). -/
def sort_scans (parseF : String → Except ParseException Parsed)
    (filenames : List String) : Except ParseException (List String) := do
  let sorted_series ← exMapList (fun fn => do
    let p ← parseF fn
    Except.ok p.series) filenames
  Except.ok (((filenames.zip sorted_series).insertionSort seriesLe).map Prod.fst)

/-- One row of the exportinfo table: columns tag, File, bookmark, Note and
Sequence (dm-qc-report.py line 176). -/
structure Row where
  tag : String
  File : String
  bookmark : String
  Note : String
  Sequence : Int
deriving DecidableEq, Repr, Inhabited

/-- Expected position of a tag (dm-qc-report.py lines 170 to 173): the Order
value when the configuration declares one (the source takes min of the
singleton list it wraps the value in), else 0. -/
def expected_position (e : ExportEntry) : Int := e.Order.getD 0

/-- Model of the tabulation loop of find_expected_files (lines 179 to 196):
walk the sorted files, skip files whose tag is not in ExportInfo, and emit one
row per recognized file carrying the running per-tag count as bookmark suffix,
flagging counts beyond the expected Count as Repeated Scan. Returns the rows
in emission order together with the final tag counts. -/
def tabulate (expInfo : List (String × ExportEntry))
    (parseF : String → Except ParseException Parsed) :
    List String → (String → Nat) → Except ParseException (List Row × (String → Nat))
  | [], tc => .ok ([], tc)
  | fn :: rest, tc => do
    let p ← parseF fn
    match lookupA expInfo p.tag with
    | none => tabulate expInfo parseF rest tc
    | some e => do
      let c := tc p.tag + 1
      let res ← tabulate expInfo parseF rest (fun t => if t == p.tag then c else tc t)
      Except.ok (⟨p.tag, fn, p.tag ++ toString c,
          if e.Count < (c : Int) then "Repeated Scan" else "",
          expected_position e⟩ :: res.1, res.2)

/-- Model of the missing-data pass (lines 199 to 205): one synthetic row per
ExportInfo tag whose final count is strictly below the expected Count, with
the deficit recorded in the Note column and empty File and bookmark. -/
def missingRows (expInfo : List (String × ExportEntry)) (tc : String → Nat) : List Row :=
  expInfo.filterMap (fun te =>
    if (tc te.1 : Int) < te.2.Count then
      some ⟨te.1, "", "", "missing(" ++ toString (te.2.Count - (tc te.1 : Int)) ++ ")",
        expected_position te.2⟩
    else none)

/-- Ordering of labelled rows by the Sequence column. -/
def rowLe (a b : Nat × Row) : Prop := a.2.Sequence ≤ b.2.Sequence

instance : DecidableRel rowLe :=
  fun a b => inferInstanceAs (Decidable (a.2.Sequence ≤ b.2.Sequence))

/-- Model of exportinfo.sort on the Sequence column (line 206). The pandas
sort rearranges the positional rows by Sequence but keeps every row paired
with its original integer index label (it does not reset the index). The
source uses the pandas default quicksort, whose ordering of rows with equal
Sequence keys is unspecified; this model sorts stably, which agrees with the
source whenever the Sequence keys involved are distinct. -/
def sortTable (rows : List Row) : List (Nat × Row) :=
  rows.enum.insertionSort rowLe

/-- Model of find_expected_files (lines 148 to 207). The directory glob of
lines 155 to 161 is modelled by the listing argument, the result of the
file-listing capability of the spec: the basenames found under scanpath. -/
def find_expected_files (parseId : String → Except ParseException Ident)
    (parseF : String → Except ParseException Parsed)
    (config : Config) (listing : List String) (subject : String) :
    Except QcErr (List (Nat × Row)) := do
  let ident ← (parseId (subject ++ "_01")).mapError QcErr.parseErr
  let allfiles ← (sort_scans parseF listing).mapError QcErr.parseErr
  let expInfo ← match lookupA config.Sites ident.site with
    | some s => Except.ok s
    | none => Except.error (QcErr.keyError ident.site)
  let res ← (tabulate expInfo parseF allfiles (fun _ => 0)).mapError QcErr.parseErr
  Except.ok (sortTable (res.1 ++ missingRows expInfo res.2))

/-- Characters of a path after the last slash, modelling os.path.basename. -/
def pyBasename (s : String) : String :=
  String.mk ((s.toList.reverse.takeWhile (fun c => c != '/')).reverse)

/-- Characters of a path before the last slash, modelling os.path.dirname for
the paths this code builds. -/
def pyDirname (s : String) : String :=
  String.mk (((s.toList.reverse.dropWhile (fun c => c != '/')).drop 1).reverse)

/-- Replace every occurrence of pat in the character list, scanning left to
right without overlap, with fuel bounding the recursion depth; one character
is consumed per step so fuel equal to the list length suffices. -/
def replaceFuel (pat repl : List Char) : Nat → List Char → List Char
  | 0, l => l
  | _ + 1, [] => []
  | n + 1, c :: rest =>
    if !pat.isEmpty && pat.isPrefixOf (c :: rest) then
      repl ++ replaceFuel pat repl n ((c :: rest).drop pat.length)
    else
      c :: replaceFuel pat repl n rest

/-- Model of the Python str.replace used by this code (always with a nonempty
pattern): replace every occurrence of pat in s by repl. -/
def strReplace (s pat repl : String) : String :=
  String.mk (replaceFuel pat.toList repl.toList s.length s.toList)

/-- Model of nifti_basename (lines 221 to 228): the basename with the .nii.gz
extension removed by str.replace. -/
def nifti_basename (fpath : String) : String :=
  strReplace (pyBasename fpath) ".nii.gz" ""

/-- Model of os.path.join for the relative second arguments this code uses. -/
def pathJoin (a b : String) : String := a ++ "/" ++ b

/-- Boolean substring test on character lists, modelling the Python in
operator on strings. -/
def isSubList (pat : List Char) : List Char → Bool
  | [] => pat.isEmpty
  | c :: rest => pat.isPrefixOf (c :: rest) || isSubList pat rest

/-- Whether sub occurs as a substring of s. -/
def containsSub (s sub : String) : Bool := isSubList sub.toList s.toList

/-- Observable side effects of one qc_subject run, in program order: directory
creation, file removal, report opening, report writes, report close, external
command execution, error logging, warnings, and handler dispatch (the tag and
file path handed to a handler). -/
inductive Event where
  | mkdir (path : String)
  | removeFile (path : String)
  | openFile (path : String)
  | write (path content : String)
  | closeFile (path : String)
  | cmd (c : String)
  | logErr (rc : Int) (out err : String)
  | warn (msg : String)
  | dispatch (tag fname : String)
deriving DecidableEq, Repr

/-- Whether an event is a handler dispatch. -/
def Event.isDispatch : Event → Bool
  | Event.dispatch _ _ => true
  | _ => false

/-- Whether an event is an external command execution. -/
def Event.isCmd : Event → Bool
  | Event.cmd _ => true
  | _ => false

/-- Whether an event writes report content. -/
def Event.isWrite : Event → Bool
  | Event.write _ _ => true
  | _ => false

/-- Oracle for subprocess execution: returncode, stdout and stderr of the
command line handed to the shell. -/
def Exec : Type := String → Int × String × String

/-- Model of run (lines 111 to 123): execute the command; on a nonzero return
code log an error with the captured stdout and stderr. It never raises,
whatever the return code. Debug-level logging of successful runs is not
tracked in the trace. -/
def run (exec : Exec) (cmd : String) : List Event :=
  let r := exec cmd
  if r.1 ≠ 0 then [Event.cmd cmd, Event.logErr r.1 r.2.1 r.2.2] else [Event.cmd cmd]

/-- Modelled from the spec: dm.utils.run (datman/utils.py is not among the
provided sources). Per the failure semantics of the spec it executes the
command, captures stdout and stderr, logs a nonzero exit and does not raise,
the same observable behaviour as the local run helper. -/
def dm_utils_run (exec : Exec) (cmd : String) : List Event :=
  run exec cmd

/-- Model of slicer (lines 125 to 133). -/
def slicer (exec : Exec) (fpath pic : String) (slicergap picwidth : Int) : List Event :=
  run exec ("slicer " ++ fpath ++ " -S " ++ toString slicergap ++ " "
    ++ toString picwidth ++ " " ++ pic)

/-- Model of add_image (lines 230 to 242): the optional centered title then
the image link markup. The os.path.relpath computation is kept as the raw
image path; that only affects the written string, not which events occur. -/
def add_image (reportName image : String) (title : Option String) : List Event :=
  (match title with
   | some t => [Event.write reportName ("<center> " ++ t ++ " </center>")]
   | none => []) ++
  [Event.write reportName ("<a img " ++ image ++ ">")]

/-- Model of phantom_fmri_qc (lines 262 to 271). -/
def phantom_fmri_qc (isfile : String → Bool) (exec : Exec)
    (filename outputDir : String) : List Event :=
  let basename := nifti_basename filename
  let output_file := pathJoin outputDir (basename ++ "_stats.csv")
  let output_prefix := pathJoin outputDir basename
  if isfile output_file then []
  else run exec ("qc-fbirn-fmri " ++ filename ++ " " ++ output_prefix)

/-- Model of phantom_dti_qc (lines 273 to 287). -/
def phantom_dti_qc (isfile : String → Bool) (exec : Exec)
    (filename outputDir : String) : List Event :=
  let dirname := pyDirname filename
  let basename := nifti_basename filename
  let output_file := pathJoin outputDir (basename ++ "_stats.csv")
  let output_prefix := pathJoin outputDir basename
  if isfile output_file then []
  else
    let bvec := pathJoin dirname (basename ++ ".bvec")
    let bval := pathJoin dirname (basename ++ ".bval")
    run exec ("qc-fbirn-dti " ++ filename ++ " " ++ bvec ++ " " ++ bval ++ " "
      ++ output_prefix ++ " n")

/-- Model of phantom_anat_qc (lines 289 to 297). -/
def phantom_anat_qc (isfile : String → Bool) (exec : Exec)
    (filename outputDir : String) : List Event :=
  let basename := nifti_basename filename
  let output_file := pathJoin outputDir (basename ++ "_adni-contrasts.csv")
  if isfile output_file then []
  else run exec ("qc-adni " ++ filename ++ " " ++ output_file)

/-- Model of fmri_qc (lines 299 to 328). -/
def fmri_qc (isfile : String → Bool) (exec : Exec)
    (filename qc_dir reportName : String) : List Event :=
  let basename := nifti_basename filename
  let scanlengths := pathJoin qc_dir (basename ++ "_scanlengths.csv")
  let output_prefix := pathJoin qc_dir basename
  let stats := output_prefix ++ "_stats.csv"
  let image_raw := pathJoin qc_dir (basename ++ "_raw.png")
  let image_sfnr := pathJoin qc_dir (basename ++ "_sfnr.png")
  let image_corr := pathJoin qc_dir (basename ++ "_corr.png")
  (if isfile scanlengths then []
   else dm_utils_run exec ("qc-scanlength " ++ filename ++ " " ++ scanlengths)) ++
  (if isfile stats then []
   else dm_utils_run exec ("qc-fmri " ++ filename ++ " " ++ output_prefix)) ++
  (if isfile image_raw then [] else slicer exec filename image_raw 2 1600) ++
  add_image reportName image_raw (some "BOLD montage") ++
  (if isfile image_sfnr then []
   else slicer exec (pathJoin qc_dir (basename ++ "_sfnr.nii.gz")) image_sfnr 2 1600) ++
  add_image reportName image_sfnr (some "SFNR map") ++
  (if isfile image_corr then []
   else slicer exec (pathJoin qc_dir (basename ++ "_corr.nii.gz")) image_corr 2 1600) ++
  add_image reportName image_corr (some "correlation map")

/-- Model of anat_qc (lines 330 to 335). -/
def anat_qc (isfile : String → Bool) (exec : Exec)
    (filename qc_dir reportName : String) : List Event :=
  let image := pathJoin qc_dir (nifti_basename filename ++ ".png")
  (if isfile image then [] else slicer exec filename image 5 1600) ++
  add_image reportName image none

/-- Model of dti_qc (lines 337 to 357). -/
def dti_qc (isfile : String → Bool) (exec : Exec)
    (filename qc_dir reportName : String) : List Event :=
  let dirname := pyDirname filename
  let basename := nifti_basename filename
  let bvec := pathJoin dirname (basename ++ ".bvec")
  let bval := pathJoin dirname (basename ++ ".bval")
  let output_prefix := pathJoin qc_dir basename
  let stats := output_prefix ++ "_stats.csv"
  let spikecount := pathJoin qc_dir (basename ++ "_spikecount.csv")
  let image := pathJoin qc_dir (basename ++ "_b0.png")
  (if isfile stats then []
   else dm_utils_run exec ("qc-dti " ++ filename ++ " " ++ bvec ++ " " ++ bval ++ " "
     ++ output_prefix)) ++
  (if isfile spikecount then []
   else dm_utils_run exec ("qc-spikecount " ++ filename ++ " " ++ spikecount ++ " " ++ bval)) ++
  (if isfile image then [] else slicer exec filename image 2 1600) ++
  add_image reportName image (some "b0 montage") ++
  add_image reportName (pathJoin qc_dir (basename ++ "_directions.png")) (some "bvec directions")

/-- Handler families appearing in the HANDLERS dispatch table of qc_subject. -/
inductive HKind where
  | anat
  | fmri
  | dti
  | ign
deriving DecidableEq, Repr

/-- The HANDLERS dispatch table of qc_subject (lines 418 to 453). -/
def HANDLERS : List (String × HKind) := [
  ("T1", HKind.anat), ("T2", HKind.anat), ("PD", HKind.anat), ("PDT2", HKind.anat),
  ("FLAIR", HKind.anat), ("FMAP", HKind.ign), ("FMAP-6.5", HKind.ign),
  ("FMAP-8.5", HKind.ign), ("RST", HKind.fmri), ("EPI", HKind.fmri),
  ("SPRL", HKind.fmri), ("OBS", HKind.fmri), ("IMI", HKind.fmri), ("NBK", HKind.fmri),
  ("EMP", HKind.fmri), ("VN-SPRL", HKind.fmri), ("SID", HKind.fmri), ("MID", HKind.fmri),
  ("DTI", HKind.dti), ("DTI21", HKind.dti), ("DTI22", HKind.dti), ("DTI23", HKind.dti),
  ("DTI60-29-1000", HKind.dti), ("DTI60-20-1000", HKind.dti), ("DTI60-1000", HKind.dti),
  ("DTI60-b1000", HKind.dti), ("DTI33-1000", HKind.dti), ("DTI33-b1000", HKind.dti),
  ("DTI33-3000", HKind.dti), ("DTI33-b3000", HKind.dti), ("DTI33-4500", HKind.dti),
  ("DTI33-b4500", HKind.dti), ("DTI23-1000", HKind.dti), ("DTI69-1000", HKind.dti)]

/-- Apply the handler of the given family exactly as HANDLERS tag (fname,
qc_dir, report) does; the ignore handler does nothing. -/
def applyHandler (hk : HKind) (isfile : String → Bool) (exec : Exec)
    (fname qc_dir reportName : String) : List Event :=
  match hk with
  | HKind.anat => anat_qc isfile exec fname qc_dir reportName
  | HKind.fmri => fmri_qc isfile exec fname qc_dir reportName
  | HKind.dti => dti_qc isfile exec fname qc_dir reportName
  | HKind.ign => []

/-- Model of add_header_qc (lines 244 to 256). The caller hands the PATH of
the header-diff log as logdata, not its contents, so the Python for loop
iterates over the characters of that path string. If some single-character
line contains the file stem, the list comprehension evaluates re.sub, which
raises NameError because the module never imports re; otherwise the
comprehension is empty and the function returns having written nothing. -/
def add_header_qc (extOf : String → String) (fpath reportName logdata : String) :
    Except QcErr (List Event) :=
  let filestem := strReplace (pyBasename fpath) (extOf fpath) ""
  let matched := (logdata.toList.map (fun c => String.singleton c)).filter
    (fun l => containsSub l filestem)
  if matched.isEmpty then Except.ok [] else Except.error QcErr.nameError

/-- Label-based row access, modelling pandas DataFrame.loc on the integer
index labels the table rows were inserted with. The labels of a table built
by find_expected_files are exactly 0 to n-1, each present once, so the
default row is never reached there. -/
def locRow (table : List (Nat × Row)) (i : Nat) : Row :=
  ((table.find? (fun p => p.1 == i)).map Prod.snd).getD default

/-- Model of write_table (lines 209 to 219): the header row, then one table
line per index label 0 to n-1 fetched with loc, so the rendered lines appear
in label (emission) order rather than sorted positional order. The three
write calls per row are tracked as a single write event. -/
def write_table (reportName : String) (table : List (Nat × Row)) : List Event :=
  [Event.write reportName "<table><tr><th>Tag</th><th>File</th><th>Notes</th></tr>"] ++
  ((List.range table.length).map (fun i =>
    let r := locRow table i
    Event.write reportName ("<tr><td>" ++ r.tag ++ "</td><td><a href=#" ++ r.bookmark
      ++ ">" ++ r.File ++ "</a></td><td>" ++ r.Note ++ "</td></tr>"))) ++
  [Event.write reportName "</table>"]

/-- Model of run_header_qc (lines 359 to 386): dicoms and standards are the
glob results for the subject dicom dir and the standards dir (full paths).
Indexing an empty dicom listing raises IndexError; a parse failure on the
first dicom, on any standard, or on any dicom propagates; a tag with no
matching standard prints a warning and continues; otherwise qc-headers runs
for the dicom. Later standards with the same tag overwrite earlier ones in
the Python dict, hence the lookup on the reversed association list. -/
def run_header_qc (parseF : String → Except ParseException Parsed) (exec : Exec)
    (dicoms standards : List String) (logfile : String) :
    Except QcErr (List Event) :=
  match dicoms with
  | [] => Except.error QcErr.indexError
  | d0 :: _ => do
    let p0 ← (parseF d0).mapError QcErr.parseErr
    let sdPairs ← (exMapList (fun s => do
      let ps ← parseF s
      Except.ok (s, ps)) standards).mapError QcErr.parseErr
    let standardDict := (sdPairs.filter (fun sp => sp.2.site == p0.site)).map
      (fun sp => (sp.2.tag, sp.1))
    let evs ← (exMapList (fun d => do
      let pd ← parseF d
      match lookupA standardDict.reverse pd.tag with
      | none => Except.ok [Event.warn pd.tag]
      | some s => Except.ok (run exec ("qc-headers " ++ d ++ " " ++ s ++ " " ++ logfile)))
      dicoms).mapError QcErr.parseErr
    Except.ok evs.flatten

/-- Model of the per-scan QC loop of qc_subject (lines 511 to 527): iterate
the index labels 0 to n-1, fetch each row with loc, skip rows with an empty
File, parse the joined path (a failure raises out of the loop), write the h2
anchor, skip tags with no handler, and otherwise run add_header_qc, dispatch
to the handler and write the trailing line break. The dispatch event records
the tag and file path handed to the handler. -/
def qcLoop (parseF : String → Except ParseException Parsed)
    (isfile : String → Bool) (exec : Exec) (extOf : String → String)
    (table : List (Nat × Row)) (scanpath reportName qc_dir headerDiff : String) :
    List Nat → List Event × Except QcErr Unit
  | [] => ([], Except.ok ())
  | i :: rest =>
    let r := locRow table i
    if r.File = "" then
      qcLoop parseF isfile exec extOf table scanpath reportName qc_dir headerDiff rest
    else
      let fname := pathJoin scanpath r.File
      match parseF fname with
      | Except.error e => ([], Except.error (QcErr.parseErr e))
      | Except.ok p =>
        let evh2 := [Event.write reportName ("<h2 id=" ++ r.bookmark ++ ">"
          ++ r.File ++ "</h2>")]
        match lookupA HANDLERS p.tag with
        | none =>
          let res := qcLoop parseF isfile exec extOf table scanpath reportName qc_dir
            headerDiff rest
          (evh2 ++ res.1, res.2)
        | some hk =>
          match add_header_qc extOf fname reportName headerDiff with
          | Except.error e => (evh2, Except.error e)
          | Except.ok evHdr =>
            let evH := evh2 ++ evHdr ++ [Event.dispatch p.tag fname]
              ++ applyHandler hk isfile exec fname qc_dir reportName
              ++ [Event.write reportName "<br>"]
            let res := qcLoop parseF isfile exec extOf table scanpath reportName qc_dir
              headerDiff rest
            (evH ++ res.1, res.2)

/-- Model of qc_subject (lines 413 to 530). Oracles: parseId and parseF for
the external naming parser, isfile for os.path.isfile, exec for subprocess
execution, extOf for dm.utils.get_extension; niiListing is the nifti glob
result under scanpath (basenames), dcmListing and stdListing the dicom and
standards glob results (paths), technotes the technotes glob result; rewrite
is the REWRITE flag. dm.utils.define_folder is external and is tracked as a
mkdir event returning its path. The CSS body of the style block is elided
from the tracked write. Result: the ordered effect trace together with
either the raised error or the returned report name (none on the early
skip). -/
def qc_subject (parseId : String → Except ParseException Ident)
    (parseF : String → Except ParseException Parsed)
    (isfile : String → Bool) (exec : Exec) (extOf : String → String)
    (niiListing dcmListing stdListing technotes : List String)
    (rewrite : Bool) (config : Config) (scanpath subject : String) :
    List Event × Except QcErr (Option String) :=
  let qc_base := config.paths.qc
  let qc_dir := pathJoin qc_base subject
  let report_name := pathJoin qc_dir ("qc_" ++ subject ++ ".html")
  let ev0 := [Event.mkdir qc_base, Event.mkdir qc_dir]
  if isfile report_name && !rewrite then (ev0, Except.ok none)
  else
    let ev1 := ev0 ++
      (if isfile report_name && rewrite then [Event.removeFile report_name] else [])
    let ev2 := ev1 ++ [Event.openFile report_name,
      Event.write report_name ("<HTML><TITLE>" ++ subject ++ " qc</TITLE>"),
      Event.write report_name "<head><style> body img table th td </style></head>",
      Event.write report_name ("<h1> QC report for " ++ subject ++ " <h1/>")]
    match find_expected_files parseId parseF config niiListing subject with
    | Except.error e => (ev2, Except.error e)
    | Except.ok table =>
      let ev3 := ev2 ++ write_table report_name table
      let ev4 := ev3 ++
        (if containsSub subject "CMH" then
          (if technotes.isEmpty then [Event.write report_name "<p>Tech Notes not found</p>"]
           else [Event.write report_name "<a technotes>Click Here to open Tech Notes</a>"])
         else [])
      let headerDiff := pathJoin qc_dir "header-diff.log"
      match (if isfile headerDiff then Except.ok ([] : List Event)
             else run_header_qc parseF exec dcmListing stdListing headerDiff) with
      | Except.error e => (ev4, Except.error e)
      | Except.ok evH =>
        let ev5 := ev4 ++ evH
        match qcLoop parseF isfile exec extOf table scanpath report_name qc_dir headerDiff
            (List.range table.length) with
        | (evL, Except.error e) => (ev5 ++ evL, Except.error e)
        | (evL, Except.ok _) => (ev5 ++ evL ++ [Event.closeFile report_name],
            Except.ok (some report_name))

/-- Model of Scan private method get_series (datman/scan.py lines 217 to 236):
keep the listing items whose extension is in ext_list, attempt to parse each
with the extension stripped (as Series init does), collect the misnamed
ones, and raise a single ParseException naming them all if any; otherwise
return the parse results. extOf models datman.utils.get_extension. -/
def get_series (parseF : String → Except ParseException Parsed)
    (extOf : String → String) (ext_list : List String) (items : List String) :
    Except ParseException (List Parsed) :=
  let matching := items.filter (fun i => ext_list.contains (extOf i))
  let badly_named := matching.filter
    (fun i => (parseF (strReplace i (extOf i) "")).toOption.isNone)
  if badly_named.isEmpty then
    Except.ok (matching.filterMap (fun i => (parseF (strReplace i (extOf i) "")).toOption))
  else
    Except.error ⟨"File(s) misnamed: " ++ String.intercalate ", " badly_named⟩

/-- Count of acquired files in a listing whose parsed tag is the given tag. -/
def taggedOk (parseF : String → Except ParseException Parsed) (t : String)
    (fn : String) : Bool :=
  match parseF fn with
  | Except.ok p => p.tag == t
  | Except.error _ => false

/-- Number of files in the listing whose parsed tag equals t: the acquired
count of the claims. -/
def acquiredCount (parseF : String → Except ParseException Parsed)
    (listing : List String) (t : String) : Nat :=
  listing.countP (taggedOk parseF t)

/-- A file is recognized when it parses and its tag has an ExportInfo entry. -/
def recognized (expInfo : List (String × ExportEntry))
    (parseF : String → Except ParseException Parsed) (fn : String) : Bool :=
  match parseF fn with
  | Except.ok p => (lookupA expInfo p.tag).isSome
  | Except.error _ => false

/-- Refinement target written from the wording of the spec, not from the
source: the real-file rows of the reconciliation, where the row for a file is
built from the 1-based ordinal of that file among same-tag files seen so far
in acquisition order (the count over the prefix pref), its bookmark is the
tag concatenated with that ordinal, and its note is Repeated Scan exactly
when the ordinal exceeds the expected count; files whose tag has no manifest
entry contribute nothing. -/
def specRealRows (expInfo : List (String × ExportEntry))
    (parseF : String → Except ParseException Parsed) :
    List String → List String → List Row
  | _, [] => []
  | pref, fn :: rest =>
    match parseF fn with
    | Except.error _ => specRealRows expInfo parseF (pref ++ [fn]) rest
    | Except.ok p =>
      match lookupA expInfo p.tag with
      | none => specRealRows expInfo parseF (pref ++ [fn]) rest
      | some e =>
        ⟨p.tag, fn, p.tag ++ toString (pref.countP (taggedOk parseF p.tag) + 1),
          if e.Count < ((pref.countP (taggedOk parseF p.tag) + 1 : Nat) : Int)
            then "Repeated Scan" else "",
          expected_position e⟩ :: specRealRows expInfo parseF (pref ++ [fn]) rest

/-- Concrete naming-parser oracle for the subject id, used by witnesses. -/
def wParseId : String → Except ParseException Ident := fun s =>
  if s == "STU_AAA_0001_01_01" then Except.ok ⟨"AAA"⟩ else Except.error ⟨"bad id"⟩

/-- Concrete naming-parser oracle for filenames, used by witnesses: four
recognizable scans (two T1, one DTI, one untracked XX), under their bare
names and under the scans directory prefix. -/
def wParseF : String → Except ParseException Parsed := fun fn =>
  if fn == "t1a.nii.gz" || fn == "scans/t1a.nii.gz" then
    Except.ok ⟨"AAA", "T1", 1, "anat"⟩
  else if fn == "t1b.nii.gz" || fn == "scans/t1b.nii.gz" then
    Except.ok ⟨"AAA", "T1", 2, "anat"⟩
  else if fn == "dti.nii.gz" || fn == "scans/dti.nii.gz" then
    Except.ok ⟨"AAA", "DTI", 3, "diff"⟩
  else if fn == "xx.nii.gz" || fn == "scans/xx.nii.gz" then
    Except.ok ⟨"AAA", "XX", 4, "aux"⟩
  else Except.error ⟨"bad filename"⟩

/-- ExportInfo of the witness site: one T1 expected at order 1, two DTI
expected at order 0; the XX tag is deliberately untracked. -/
def wExpInfo : List (String × ExportEntry) := [("T1", ⟨1, some 1⟩), ("DTI", ⟨2, some 0⟩)]

/-- Witness configuration. -/
def wConfig : Config := ⟨[("AAA", wExpInfo)], ⟨"dcm", "qc", "std"⟩⟩

/-- Witness nifti listing. -/
def wListing : List String := ["t1a.nii.gz", "t1b.nii.gz", "dti.nii.gz", "xx.nii.gz"]

deriving instance DecidableEq for Except

/-- The reconciliation table find_expected_files returns on the witness
scenario: positional rows sorted ascending by Sequence, labels preserved. -/
def wTable : List (Nat × Row) := [
  (2, ⟨"DTI", "dti.nii.gz", "DTI1", "", 0⟩),
  (3, ⟨"DTI", "", "", "missing(1)", 0⟩),
  (0, ⟨"T1", "t1a.nii.gz", "T11", "", 1⟩),
  (1, ⟨"T1", "t1b.nii.gz", "T12", "Repeated Scan", 1⟩)]

/-- Path of the per-subject QC report file qc_subject builds. -/
def reportNameOf (config : Config) (subject : String) : String :=
  pathJoin (pathJoin config.paths.qc subject) ("qc_" ++ subject ++ ".html")

/-- Path of the per-subject header-diff log. -/
def headerDiffOf (config : Config) (subject : String) : String :=
  pathJoin (pathJoin config.paths.qc subject) "header-diff.log"

/-- Dispatch events the QC loop performs for one table row: none when the row
is a missing-row, none when the joined path does not parse or its tag has no
handler, and the single dispatch of the joined path otherwise. -/
def dispOf (parseF : String → Except ParseException Parsed) (scanpath : String)
    (r : Row) : List Event :=
  if r.File = "" then []
  else
    match parseF (pathJoin scanpath r.File) with
    | Except.error _ => []
    | Except.ok p =>
      match lookupA HANDLERS p.tag with
      | none => []
      | some _ => [Event.dispatch p.tag (pathJoin scanpath r.File)]

/-- Naming-parser oracle whose subject id parses to the site BBB, which the
witness configuration does not declare. -/
def cParseId : String → Except ParseException Ident := fun s =>
  if s == "STU_BBB_0002_01_01" then Except.ok ⟨"BBB"⟩ else Except.error ⟨"bad id"⟩

/-- Filenames handed to handlers, in dispatch order, read off a trace. -/
def dispatchedFiles (tr : List Event) : List String :=
  tr.filterMap (fun e => match e with
    | Event.dispatch _ f => some f
    | _ => none)

/-- Non-empty filenames of a table in its positional (sorted) order. -/
def nonEmptyFiles (table : List (Nat × Row)) : List String :=
  (table.map Prod.snd).filterMap (fun r => if r.File = "" then none else some r.File)

/-- The emission-order rows of the witness scenario: acquisition order for the
real files, then the missing-row; sortTable of these is wTable. -/
def wRows : List Row := [
  ⟨"T1", "t1a.nii.gz", "T11", "", 1⟩,
  ⟨"T1", "t1b.nii.gz", "T12", "Repeated Scan", 1⟩,
  ⟨"DTI", "dti.nii.gz", "DTI1", "", 0⟩,
  ⟨"DTI", "", "", "missing(1)", 0⟩]

/-- Filesystem oracle for the driver scenarios: only the header-diff log
exists on disk. -/
def c5Isfile : String → Bool := fun p => p == "qc/STU_AAA_0001_01/header-diff.log"

theorem exBind_ok {ε α β : Type} (a : α) (k : α → Except ε β) :
    (Except.ok a >>= k) = k a := rfl

theorem exBind_err {ε α β : Type} (e : ε) (k : α → Except ε β) :
    ((Except.error e : Except ε α) >>= k) = Except.error e := rfl

theorem mapError_ok {ε ε' α : Type} (f : ε → ε') (a : α) :
    Except.mapError f (Except.ok a : Except ε α) = Except.ok a := rfl

theorem mapError_err {ε ε' α : Type} (f : ε → ε') (e : ε) :
    Except.mapError f (Except.error e : Except ε α) = Except.error (f e) := rfl

theorem exMapList_ok_of_forall {ε α β : Type} (f : α → Except ε β) (g : α → β) :
    ∀ l : List α, (∀ a ∈ l, f a = Except.ok (g a)) →
      exMapList f l = Except.ok (l.map g) := by
  intro l
  induction l with
  | nil => intro _; rfl
  | cons a l ih =>
    intro h
    have ha := h a (by simp)
    have hl := ih (fun x hx => h x (by simp [hx]))
    simp [exMapList, ha, hl, exBind_ok]

theorem exMapList_exists_ok {ε α β : Type} (f : α → Except ε β) :
    ∀ l : List α, (∀ a ∈ l, ∃ b, f a = Except.ok b) →
      ∃ ys, exMapList f l = Except.ok ys := by
  intro l
  induction l with
  | nil => intro _; exact ⟨[], rfl⟩
  | cons a l ih =>
    intro h
    obtain ⟨b, hb⟩ := h a (by simp)
    obtain ⟨ys, hys⟩ := ih (fun x hx => h x (by simp [hx]))
    exact ⟨b :: ys, by simp [exMapList, hb, hys, exBind_ok]⟩

theorem exMapList_ok_length {ε α β : Type} (f : α → Except ε β) :
    ∀ (l : List α) (ys : List β), exMapList f l = Except.ok ys →
      ys.length = l.length := by
  intro l
  induction l with
  | nil =>
    intro ys h
    simp [exMapList] at h
    simp [← h]
  | cons a l ih =>
    intro ys h
    simp only [exMapList] at h
    cases hfa : f a with
    | error e => rw [hfa] at h; simp [exBind_err] at h
    | ok b =>
      rw [hfa, exBind_ok] at h
      cases hrec : exMapList f l with
      | error e => rw [hrec] at h; simp [exBind_err] at h
      | ok bs =>
        rw [hrec, exBind_ok] at h
        cases h
        simp [ih bs hrec]

theorem exMapList_error_of_mem {ε α β : Type} (f : α → Except ε β) {a : α} {e : ε} :
    ∀ l : List α, a ∈ l → f a = Except.error e →
      ∃ e', exMapList f l = Except.error e' := by
  intro l
  induction l with
  | nil => intro h; cases h
  | cons x l ih =>
    intro hmem hfa
    rcases List.mem_cons.mp hmem with rfl | hmem
    · exact ⟨e, by simp [exMapList, hfa, exBind_err]⟩
    · cases hfx : f x with
      | error e' => exact ⟨e', by simp [exMapList, hfx, exBind_err]⟩
      | ok b =>
        obtain ⟨e', he'⟩ := ih hmem hfa
        exact ⟨e', by simp [exMapList, hfx, he', exBind_ok, exBind_err]⟩

theorem sort_scans_ok_perm (parseF : String → Except ParseException Parsed)
    (l : List String) (out : List String)
    (h : sort_scans parseF l = Except.ok out) : out.Perm l := by
  unfold sort_scans at h
  cases hm : exMapList (fun fn => do
      let p ← parseF fn
      Except.ok p.series) l with
  | error e => rw [hm] at h; simp [exBind_err] at h
  | ok series =>
    rw [hm, exBind_ok] at h
    cases h
    have hlen : series.length = l.length := exMapList_ok_length _ l series hm
    have hperm : ((l.zip series).insertionSort seriesLe).Perm (l.zip series) :=
      List.perm_insertionSort seriesLe (l.zip series)
    have := hperm.map Prod.fst
    rwa [List.map_fst_zip l series (by omega)] at this

theorem sort_scans_exists_ok (parseF : String → Except ParseException Parsed)
    (l : List String) (h : ∀ fn ∈ l, ∃ p, parseF fn = Except.ok p) :
    ∃ out, sort_scans parseF l = Except.ok out := by
  have : ∀ fn ∈ l, ∃ s, (do
      let p ← parseF fn
      Except.ok p.series : Except ParseException Int) = Except.ok s := by
    intro fn hfn
    obtain ⟨p, hp⟩ := h fn hfn
    exact ⟨p.series, by simp [hp, exBind_ok]⟩
  obtain ⟨ys, hys⟩ := exMapList_exists_ok _ l this
  refine ⟨((l.zip ys).insertionSort seriesLe).map Prod.fst, ?_⟩
  simp [sort_scans, hys, exBind_ok]

theorem sort_scans_error_of_mem (parseF : String → Except ParseException Parsed)
    (l : List String) {fn : String} {pe : ParseException}
    (hfn : fn ∈ l) (hpe : parseF fn = Except.error pe) :
    ∃ e, sort_scans parseF l = Except.error e := by
  have : (do
      let p ← parseF fn
      Except.ok p.series : Except ParseException Int) = Except.error pe := by
    simp [hpe, exBind_err]
  obtain ⟨e', he'⟩ := exMapList_error_of_mem (fun fn => do
    let p ← parseF fn
    Except.ok p.series) l hfn this
  exact ⟨e', by simp [sort_scans, he', exBind_err]⟩

theorem lookupA_eq_some_of_mem_nodup {β : Type} :
    ∀ (l : List (String × β)) (t : String) (e : β),
      (l.map Prod.fst).Nodup → (t, e) ∈ l → lookupA l t = some e := by
  intro l
  induction l with
  | nil => intro t e _ hmem; cases hmem
  | cons x l ih =>
    intro t e hnd hmem
    rw [List.map_cons, List.nodup_cons] at hnd
    rcases List.mem_cons.mp hmem with h | h
    · cases h
      simp [lookupA, List.find?]
    · have ht : t ∈ l.map Prod.fst := List.mem_map.mpr ⟨(t, e), h, rfl⟩
      have hx1 : x.1 ≠ t := fun hx => hnd.1 (hx ▸ ht)
      have := ih t e hnd.2 h
      simp only [lookupA] at this ⊢
      rw [List.find?_cons_of_neg]
      · exact this
      · simp [hx1]

theorem lookupA_isSome_of_mem {β : Type} :
    ∀ (l : List (String × β)) (t : String) (e : β),
      (t, e) ∈ l → (lookupA l t).isSome := by
  intro l
  induction l with
  | nil => intro t e hmem; cases hmem
  | cons x l ih =>
    intro t e hmem
    rcases List.mem_cons.mp hmem with h | h
    · cases h
      simp [lookupA, List.find?]
    · simp only [lookupA]
      cases hx : (x.1 == t) with
      | true => simp [List.find?, hx]
      | false =>
        rw [List.find?_cons_of_neg _ (by simp [hx])]
        exact ih t e h

theorem tabulate_eq_spec (expInfo : List (String × ExportEntry))
    (parseF : String → Except ParseException Parsed) :
    ∀ (files pref : List String) (tc : String → Nat) (pr : List Row × (String → Nat)),
      (∀ t, (lookupA expInfo t).isSome → tc t = pref.countP (taggedOk parseF t)) →
      tabulate expInfo parseF files tc = Except.ok pr →
      pr.1 = specRealRows expInfo parseF pref files := by
  intro files
  induction files with
  | nil =>
    intro pref tc pr _ h
    simp only [tabulate] at h
    cases h
    rfl
  | cons fn rest ih =>
    intro pref tc pr hinv h
    cases hp : parseF fn with
    | error e =>
      simp only [tabulate, hp, exBind_err] at h
      exact Except.noConfusion h
    | ok p =>
      cases hl : lookupA expInfo p.tag with
      | none =>
        simp only [tabulate, hp, exBind_ok, hl] at h
        have hinv' : ∀ t, (lookupA expInfo t).isSome →
            tc t = (pref ++ [fn]).countP (taggedOk parseF t) := by
          intro t hts
          have hne : p.tag ≠ t := by
            intro hEq
            rw [← hEq, hl] at hts
            cases hts
          have hfalse : taggedOk parseF t fn = false := by
            simp only [taggedOk, hp]
            simp [hne]
          rw [List.countP_append, hinv t hts]
          simp [List.countP_cons, hfalse]
        simp only [specRealRows, hp, hl]
        exact ih (pref ++ [fn]) tc pr hinv' h
      | some e =>
        cases hrec : tabulate expInfo parseF rest
            (fun t => if t == p.tag then tc p.tag + 1 else tc t) with
        | error er =>
          simp only [tabulate, hp, exBind_ok, hl, hrec, exBind_err] at h
          exact Except.noConfusion h
        | ok res =>
          simp only [tabulate, hp, exBind_ok, hl, hrec] at h
          cases h
          have hcnt : tc p.tag = pref.countP (taggedOk parseF p.tag) :=
            hinv p.tag (by simp [hl])
          have hinv' : ∀ t, (lookupA expInfo t).isSome →
              (if t == p.tag then tc p.tag + 1 else tc t)
                = (pref ++ [fn]).countP (taggedOk parseF t) := by
            intro t hts
            by_cases hEq : t = p.tag
            · rw [hEq]
              have htrue : taggedOk parseF p.tag fn = true := by simp [taggedOk, hp]
              rw [List.countP_append]
              simp [List.countP_cons, htrue, hcnt]
            · have hfalse : taggedOk parseF t fn = false := by
                simp only [taggedOk, hp]
                simp
                exact fun hEq2 => absurd hEq2.symm hEq
              rw [List.countP_append, if_neg (by simp [hEq])]
              simp [List.countP_cons, hfalse, hinv t hts]
          have hrest := ih (pref ++ [fn])
            (fun t => if t == p.tag then tc p.tag + 1 else tc t) res hinv' hrec
          simp only [specRealRows, hp, hl]
          simp only [List.cons.injEq]
          constructor
          · rw [hcnt]
          · exact hrest

theorem tabulate_counts (expInfo : List (String × ExportEntry))
    (parseF : String → Except ParseException Parsed) :
    ∀ (files : List String) (tc : String → Nat) (pr : List Row × (String → Nat)),
      tabulate expInfo parseF files tc = Except.ok pr →
      ∀ t, (lookupA expInfo t).isSome →
        pr.2 t = tc t + files.countP (taggedOk parseF t) := by
  intro files
  induction files with
  | nil =>
    intro tc pr h t _
    simp only [tabulate] at h
    cases h
    simp
  | cons fn rest ih =>
    intro tc pr h t hts
    cases hp : parseF fn with
    | error e =>
      simp only [tabulate, hp, exBind_err] at h
      exact Except.noConfusion h
    | ok p =>
      cases hl : lookupA expInfo p.tag with
      | none =>
        simp only [tabulate, hp, exBind_ok, hl] at h
        have hne : p.tag ≠ t := by
          intro hEq
          rw [← hEq, hl] at hts
          cases hts
        have hfalse : taggedOk parseF t fn = false := by
          simp only [taggedOk, hp]
          simp [hne]
        rw [ih tc pr h t hts]
        simp [List.countP_cons, hfalse]
      | some e =>
        cases hrec : tabulate expInfo parseF rest
            (fun u => if u == p.tag then tc p.tag + 1 else tc u) with
        | error er =>
          simp only [tabulate, hp, exBind_ok, hl, hrec, exBind_err] at h
          exact Except.noConfusion h
        | ok res =>
          simp only [tabulate, hp, exBind_ok, hl, hrec] at h
          cases h
          by_cases hEq : t = p.tag
          · rw [hEq] at hts ⊢
            have hres := ih _ res hrec p.tag hts
            have htrue : taggedOk parseF p.tag fn = true := by simp [taggedOk, hp]
            simp only [beq_self_eq_true, if_true] at hres
            rw [hres]
            simp [List.countP_cons, htrue]
            omega
          · have hres := ih _ res hrec t hts
            have hfalse : taggedOk parseF t fn = false := by
              simp only [taggedOk, hp]
              simp
              exact fun hEq2 => absurd hEq2.symm hEq
            rw [hres, if_neg (by simp [hEq])]
            simp [List.countP_cons, hfalse]

theorem tabulate_exists_ok (expInfo : List (String × ExportEntry))
    (parseF : String → Except ParseException Parsed) :
    ∀ (files : List String) (tc : String → Nat),
      (∀ fn ∈ files, ∃ p, parseF fn = Except.ok p) →
      ∃ pr, tabulate expInfo parseF files tc = Except.ok pr := by
  intro files
  induction files with
  | nil => intro tc _; exact ⟨([], tc), rfl⟩
  | cons fn rest ih =>
    intro tc h
    obtain ⟨p, hp⟩ := h fn (by simp)
    have hrest := fun tc' => ih tc' (fun x hx => h x (by simp [hx]))
    cases hl : lookupA expInfo p.tag with
    | none =>
      obtain ⟨pr, hpr⟩ := hrest tc
      exact ⟨pr, by simp only [tabulate, hp, exBind_ok, hl]; exact hpr⟩
    | some e =>
      obtain ⟨pr, hpr⟩ := hrest (fun t => if t == p.tag then tc p.tag + 1 else tc t)
      refine ⟨(⟨p.tag, fn, p.tag ++ toString (tc p.tag + 1),
        if e.Count < ((tc p.tag + 1 : Nat) : Int) then "Repeated Scan" else "",
        expected_position e⟩ :: pr.1, pr.2), ?_⟩
      simp only [tabulate, hp, exBind_ok, hl, hpr]

theorem specRealRows_files (expInfo : List (String × ExportEntry))
    (parseF : String → Except ParseException Parsed) :
    ∀ (files pref : List String),
      (specRealRows expInfo parseF pref files).map Row.File
        = files.filter (recognized expInfo parseF) := by
  intro files
  induction files with
  | nil => intro pref; rfl
  | cons fn rest ih =>
    intro pref
    cases hp : parseF fn with
    | error e =>
      have hrec : recognized expInfo parseF fn = false := by simp [recognized, hp]
      simp only [specRealRows, hp]
      simp [List.filter_cons, hrec, ih]
    | ok p =>
      cases hl : lookupA expInfo p.tag with
      | none =>
        have hrec : recognized expInfo parseF fn = false := by simp [recognized, hp, hl]
        simp only [specRealRows, hp, hl]
        simp [List.filter_cons, hrec, ih]
      | some e =>
        have hrec : recognized expInfo parseF fn = true := by simp [recognized, hp, hl]
        simp only [specRealRows, hp, hl]
        simp [List.filter_cons, hrec, ih]

theorem missingRows_mem {expInfo : List (String × ExportEntry)} {tc : String → Nat}
    {r : Row} (h : r ∈ missingRows expInfo tc) :
    ∃ te ∈ expInfo, ((tc te.1 : Int) < te.2.Count) ∧
      r = ⟨te.1, "", "", "missing(" ++ toString (te.2.Count - (tc te.1 : Int)) ++ ")",
        expected_position te.2⟩ := by
  obtain ⟨te, hte, hsome⟩ := List.mem_filterMap.mp h
  by_cases hc : (tc te.1 : Int) < te.2.Count
  · rw [if_pos hc] at hsome
    injection hsome with h2
    exact ⟨te, hte, hc, h2.symm⟩
  · rw [if_neg hc] at hsome
    cases hsome

theorem missingRows_countP_zero :
    ∀ (expInfo : List (String × ExportEntry)) (tc : String → Nat) (t : String),
      t ∉ expInfo.map Prod.fst →
      (missingRows expInfo tc).countP (fun r => r.tag == t && r.File == "") = 0 := by
  intro expInfo tc t ht
  rw [List.countP_eq_zero]
  intro r hr
  obtain ⟨te, hte, _, rfl⟩ := missingRows_mem hr
  simp only [Bool.and_eq_true, beq_iff_eq, not_and]
  intro hEq _
  exact absurd (hEq ▸ List.mem_map.mpr ⟨te, hte, rfl⟩) ht

theorem missingRows_countP :
    ∀ (expInfo : List (String × ExportEntry)) (tc : String → Nat) (t : String)
      (e : ExportEntry),
      (expInfo.map Prod.fst).Nodup → (t, e) ∈ expInfo →
      (missingRows expInfo tc).countP (fun r => r.tag == t && r.File == "")
        = if (tc t : Int) < e.Count then 1 else 0 := by
  intro expInfo
  induction expInfo with
  | nil => intro tc t e _ hmem; cases hmem
  | cons x l ih =>
    intro tc t e hnd hmem
    rw [List.map_cons, List.nodup_cons] at hnd
    rcases List.mem_cons.mp hmem with hx | hmem2
    · cases hx
      have hzero := missingRows_countP_zero l tc t hnd.1
      simp only [missingRows, List.filterMap_cons] at hzero ⊢
      by_cases hc : (tc t : Int) < e.Count
      · rw [if_pos hc, if_pos hc, List.countP_cons]
        simp only [beq_self_eq_true, Bool.and_self, if_true]
        rw [hzero]
      · rw [if_neg hc, if_neg hc]
        exact hzero
    · have ht : x.1 ≠ t :=
        fun hx => hnd.1 (hx ▸ List.mem_map.mpr ⟨(t, e), hmem2, rfl⟩)
      have hrec := ih tc t e hnd.2 hmem2
      simp only [missingRows, List.filterMap_cons] at hrec ⊢
      by_cases hc : (tc x.1 : Int) < x.2.Count
      · rw [if_pos hc, List.countP_cons]
        have hfalse : (((⟨x.1, "", "",
            "missing(" ++ toString (x.2.Count - (tc x.1 : Int)) ++ ")",
            expected_position x.2⟩ : Row).tag == t)
              && ((⟨x.1, "", "", "missing(" ++ toString (x.2.Count - (tc x.1 : Int)) ++ ")",
            expected_position x.2⟩ : Row).File == "")) = false := by
          simp [ht]
        rw [hfalse]
        simp [hrec]
      · rw [if_neg hc]
        exact hrec

theorem find?_unique {α : Type} (p : α → Bool) :
    ∀ (l : List α) (a : α), a ∈ l → p a = true →
      (∀ b ∈ l, p b = true → b = a) → l.find? p = some a := by
  intro l
  induction l with
  | nil => intro a h; cases h
  | cons x l ih =>
    intro a hmem hpa huniq
    by_cases hpx : p x = true
    · rw [List.find?_cons_of_pos _ hpx]
      exact congrArg some (huniq x (by simp) hpx)
    · rw [List.find?_cons_of_neg _ (by simp [hpx])]
      rcases List.mem_cons.mp hmem with rfl | hmem2
      · exact absurd hpa hpx
      · exact ih a hmem2 hpa (fun b hb hpb => huniq b (by simp [hb]) hpb)

theorem sortTable_perm (rows : List Row) : (sortTable rows).Perm rows.enum :=
  List.perm_insertionSort rowLe rows.enum

theorem sortTable_length (rows : List Row) : (sortTable rows).length = rows.length := by
  rw [(sortTable_perm rows).length_eq]
  simp

theorem sortTable_map_snd_perm (rows : List Row) :
    ((sortTable rows).map Prod.snd).Perm rows := by
  have h := (sortTable_perm rows).map Prod.snd
  rwa [List.enum_map_snd] at h

theorem locRow_sortTable (rows : List Row) (i : Nat) (h : i < rows.length) :
    locRow (sortTable rows) i = rows[i] := by
  have hmem : (i, rows[i]) ∈ rows.enum := by
    have hb : i < rows.enum.length := by simpa using h
    have hg : rows.enum[i] = (i, rows[i]) := List.getElem_enum rows i hb
    rw [← hg]
    exact List.getElem_mem hb
  have hmem2 : (i, rows[i]) ∈ sortTable rows := (sortTable_perm rows).mem_iff.mpr hmem
  have huniq : ∀ b ∈ sortTable rows, (b.1 == i) = true → b = (i, rows[i]) := by
    intro b hb hbi
    obtain ⟨j, x⟩ := b
    have hb2 : (j, x) ∈ rows.enum := (sortTable_perm rows).mem_iff.mp hb
    obtain ⟨hj, hx⟩ := List.mem_enum hb2
    have hji : j = i := by simpa using hbi
    subst hji
    rw [hx]
  have hfind := find?_unique (fun p => p.1 == i) (sortTable rows) (i, rows[i])
    hmem2 (by simp) huniq
  simp [locRow, hfind]

theorem find_ok_construct (parseId : String → Except ParseException Ident)
    (parseF : String → Except ParseException Parsed)
    (config : Config) (listing : List String) (subject : String)
    (ident : Ident) (expInfo : List (String × ExportEntry))
    (allfiles : List String) (pr : List Row × (String → Nat))
    (hI : parseId (subject ++ "_01") = Except.ok ident)
    (hsort : sort_scans parseF listing = Except.ok allfiles)
    (hS : lookupA config.Sites ident.site = some expInfo)
    (htab : tabulate expInfo parseF allfiles (fun _ => 0) = Except.ok pr) :
    find_expected_files parseId parseF config listing subject
      = Except.ok (sortTable (pr.1 ++ missingRows expInfo pr.2)) := by
  simp only [find_expected_files, hI, mapError_ok, exBind_ok, hsort, hS, htab]

theorem find_ok_inv (parseId : String → Except ParseException Ident)
    (parseF : String → Except ParseException Parsed)
    (config : Config) (listing : List String) (subject : String)
    (ident : Ident) (expInfo : List (String × ExportEntry)) (table : List (Nat × Row))
    (hI : parseId (subject ++ "_01") = Except.ok ident)
    (hS : lookupA config.Sites ident.site = some expInfo)
    (hT : find_expected_files parseId parseF config listing subject = Except.ok table) :
    ∃ allfiles pr, sort_scans parseF listing = Except.ok allfiles ∧ allfiles.Perm listing ∧
      tabulate expInfo parseF allfiles (fun _ => 0) = Except.ok pr ∧
      table = sortTable (pr.1 ++ missingRows expInfo pr.2) := by
  cases hsort : sort_scans parseF listing with
  | error e =>
    simp only [find_expected_files, hI, mapError_ok, exBind_ok, hsort, mapError_err,
      exBind_err] at hT
    exact Except.noConfusion hT
  | ok allfiles =>
    cases htab : tabulate expInfo parseF allfiles (fun _ => 0) with
    | error e =>
      simp only [find_expected_files, hI, mapError_ok, exBind_ok, hsort, hS, htab,
        mapError_err, exBind_err] at hT
      exact Except.noConfusion hT
    | ok pr =>
      simp only [find_expected_files, hI, mapError_ok, exBind_ok, hsort, hS, htab] at hT
      injection hT with h2
      exact ⟨allfiles, pr, rfl, sort_scans_ok_perm parseF listing allfiles hsort, htab, h2.symm⟩

theorem find_error_keyError (parseId : String → Except ParseException Ident)
    (parseF : String → Except ParseException Parsed)
    (config : Config) (listing : List String) (subject : String)
    (ident : Ident) (allfiles : List String)
    (hI : parseId (subject ++ "_01") = Except.ok ident)
    (hsort : sort_scans parseF listing = Except.ok allfiles)
    (hS : lookupA config.Sites ident.site = none) :
    find_expected_files parseId parseF config listing subject
      = Except.error (QcErr.keyError ident.site) := by
  simp only [find_expected_files, hI, mapError_ok, exBind_ok, hsort, hS, exBind_err]

theorem find_error_parse (parseId : String → Except ParseException Ident)
    (parseF : String → Except ParseException Parsed)
    (config : Config) (listing : List String) (subject : String)
    (ident : Ident) {fn : String} {pe : ParseException}
    (hI : parseId (subject ++ "_01") = Except.ok ident)
    (hfn : fn ∈ listing) (hpe : parseF fn = Except.error pe) :
    ∃ e, find_expected_files parseId parseF config listing subject
      = Except.error (QcErr.parseErr e) := by
  obtain ⟨e, he⟩ := sort_scans_error_of_mem parseF listing hfn hpe
  exact ⟨e, by
    simp only [find_expected_files, hI, mapError_ok, exBind_ok, he, mapError_err, exBind_err]⟩

theorem specRealRows_File_ne (expInfo : List (String × ExportEntry))
    (parseF : String → Except ParseException Parsed) (files : List String)
    (hne : ∀ fn ∈ files, fn ≠ "") :
    ∀ r ∈ specRealRows expInfo parseF [] files, r.File ≠ "" := by
  intro r hr
  have h1 : r.File ∈ (specRealRows expInfo parseF [] files).map Row.File :=
    List.mem_map_of_mem Row.File hr
  rw [specRealRows_files] at h1
  exact hne r.File (List.mem_of_mem_filter h1)

/-- C2: for every tag in the manifest, the reconciliation table of
find_expected_files contains exactly one missing-row for that tag (a row with
that tag and empty File) when the acquired count is strictly below the
expected count, and none otherwise: a tag with expected count 0 is never
flagged and no tag ever has more than one missing-row. The note of a
missing-row for the tag records the deficit, expected count minus acquired
count. -/
theorem C2_missing_row_per_tag
    (parseId : String → Except ParseException Ident)
    (parseF : String → Except ParseException Parsed)
    (config : Config) (listing : List String) (subject : String)
    (ident : Ident) (expInfo : List (String × ExportEntry)) (table : List (Nat × Row))
    (t : String) (e : ExportEntry)
    (hI : parseId (subject ++ "_01") = Except.ok ident)
    (hS : lookupA config.Sites ident.site = some expInfo)
    (hNd : (expInfo.map Prod.fst).Nodup)
    (hte : (t, e) ∈ expInfo)
    (hne : ∀ fn ∈ listing, fn ≠ "")
    (hT : find_expected_files parseId parseF config listing subject = Except.ok table) :
    ((table.map Prod.snd).countP (fun r => r.tag == t && r.File == "")
        = if (acquiredCount parseF listing t : Int) < e.Count then 1 else 0)
    ∧ (∀ r ∈ table.map Prod.snd, r.tag = t → r.File = "" →
        r.Note = "missing("
          ++ toString (e.Count - (acquiredCount parseF listing t : Int)) ++ ")") := by
  obtain ⟨allfiles, pr, hsort, hperm, htab, hTable⟩ :=
    find_ok_inv parseId parseF config listing subject ident expInfo table hI hS hT
  have hspec := tabulate_eq_spec expInfo parseF allfiles [] (fun _ => 0) pr
    (fun _ _ => rfl) htab
  have hpermT : (table.map Prod.snd).Perm (pr.1 ++ missingRows expInfo pr.2) := by
    rw [hTable]
    exact sortTable_map_snd_perm _
  have hcnt_t : pr.2 t = acquiredCount parseF listing t := by
    have h1 := tabulate_counts expInfo parseF allfiles (fun _ => 0) pr htab t
      (lookupA_isSome_of_mem expInfo t e hte)
    rw [h1]
    simp only [Nat.zero_add, acquiredCount]
    exact List.Perm.countP_eq _ hperm
  have hneall : ∀ fn ∈ allfiles, fn ≠ "" :=
    fun fn hfn => hne fn (hperm.mem_iff.mp hfn)
  have hreal : ∀ r ∈ pr.1, r.File ≠ "" := by
    rw [hspec]
    exact specRealRows_File_ne expInfo parseF allfiles hneall
  constructor
  · rw [List.Perm.countP_eq _ hpermT, List.countP_append]
    have hzero : pr.1.countP (fun r => r.tag == t && r.File == "") = 0 := by
      rw [List.countP_eq_zero]
      intro r hr
      simp only [Bool.and_eq_true, beq_iff_eq, not_and]
      intro _ hFile
      exact absurd hFile (hreal r hr)
    rw [hzero, missingRows_countP expInfo pr.2 t e hNd hte, hcnt_t]
    simp
  · intro r hr hrt hrF
    have hr2 : r ∈ pr.1 ++ missingRows expInfo pr.2 := hpermT.mem_iff.mp hr
    rcases List.mem_append.mp hr2 with hr3 | hr3
    · exact absurd hrF (hreal r hr3)
    · obtain ⟨te, hte2, hct, rfl⟩ := missingRows_mem hr3
      simp only at hrt
      have h1 : lookupA expInfo te.1 = some te.2 :=
        lookupA_eq_some_of_mem_nodup expInfo te.1 te.2 hNd hte2
      have h2 : lookupA expInfo t = some e :=
        lookupA_eq_some_of_mem_nodup expInfo t e hNd hte
      rw [hrt, h2] at h1
      injection h1 with hEq2
      simp only
      rw [hrt, hEq2, hcnt_t]

/-- C3: for every acquired file whose tag is in the manifest, the real-file
row emitted for it carries bookmark equal to the tag concatenated with the
1-based ordinal of the file among same-tag files in acquisition order (not
padded), and its note is Repeated Scan exactly when that ordinal exceeds the
expected count of the tag (so a tag with expected count 0 marks every file
Repeated from ordinal 1): the real-file rows of the table are, as a multiset,
exactly specRealRows, the rows prescribed by that wording of the spec. -/
theorem C3_bookmark_ordinal_repeated
    (parseId : String → Except ParseException Ident)
    (parseF : String → Except ParseException Parsed)
    (config : Config) (listing : List String) (subject : String)
    (ident : Ident) (expInfo : List (String × ExportEntry)) (table : List (Nat × Row))
    (allfiles : List String)
    (hI : parseId (subject ++ "_01") = Except.ok ident)
    (hS : lookupA config.Sites ident.site = some expInfo)
    (hsort : sort_scans parseF listing = Except.ok allfiles)
    (hne : ∀ fn ∈ listing, fn ≠ "")
    (hT : find_expected_files parseId parseF config listing subject = Except.ok table) :
    ((table.map Prod.snd).filter (fun r => r.File != "")).Perm
      (specRealRows expInfo parseF [] allfiles) := by
  obtain ⟨allfiles2, pr, hsort2, hperm, htab, hTable⟩ :=
    find_ok_inv parseId parseF config listing subject ident expInfo table hI hS hT
  rw [hsort] at hsort2
  injection hsort2 with hEq
  subst hEq
  have hspec := tabulate_eq_spec expInfo parseF allfiles [] (fun _ => 0) pr
    (fun _ _ => rfl) htab
  have hpermT : (table.map Prod.snd).Perm (pr.1 ++ missingRows expInfo pr.2) := by
    rw [hTable]
    exact sortTable_map_snd_perm _
  have hneall : ∀ fn ∈ allfiles, fn ≠ "" :=
    fun fn hfn => hne fn (hperm.mem_iff.mp hfn)
  have hreal : ∀ r ∈ pr.1, r.File ≠ "" := by
    rw [hspec]
    exact specRealRows_File_ne expInfo parseF allfiles hneall
  have hfilter := List.Perm.filter (fun r => r.File != "") hpermT
  rw [List.filter_append] at hfilter
  have h1 : pr.1.filter (fun r => r.File != "") = pr.1 :=
    List.filter_eq_self.mpr (fun r hr => bne_iff_ne.mpr (hreal r hr))
  have h2 : (missingRows expInfo pr.2).filter (fun r => r.File != "") = [] := by
    rw [List.filter_eq_nil]
    intro r hr
    obtain ⟨te, _, _, rfl⟩ := missingRows_mem hr
    simp
  rw [h1, h2, List.append_nil, hspec] at hfilter
  exact hfilter

/-- C4: an acquired file whose tag has no manifest entry contributes no row
and raises no error: under parseable input the reconciliation succeeds, the
real-file rows of the table correspond one to one (as multisets of filenames)
to the recognized files of the listing, and no row of the table carries the
filename of an unrecognized file. -/
theorem C4_unrecognized_files_dropped
    (parseId : String → Except ParseException Ident)
    (parseF : String → Except ParseException Parsed)
    (config : Config) (listing : List String) (subject : String)
    (ident : Ident) (expInfo : List (String × ExportEntry))
    (hI : parseId (subject ++ "_01") = Except.ok ident)
    (hS : lookupA config.Sites ident.site = some expInfo)
    (hg : ∀ fn ∈ listing, ∃ p, parseF fn = Except.ok p)
    (hne : ∀ fn ∈ listing, fn ≠ "") :
    ∃ table, find_expected_files parseId parseF config listing subject = Except.ok table ∧
      (((table.map Prod.snd).filter (fun r => r.File != "")).map Row.File).Perm
        (listing.filter (recognized expInfo parseF)) ∧
      (∀ fn ∈ listing, recognized expInfo parseF fn = false →
        ∀ r ∈ table.map Prod.snd, r.File ≠ fn) := by
  obtain ⟨allfiles, hsort⟩ := sort_scans_exists_ok parseF listing hg
  have hperm := sort_scans_ok_perm parseF listing allfiles hsort
  have hg2 : ∀ fn ∈ allfiles, ∃ p, parseF fn = Except.ok p :=
    fun fn hfn => hg fn (hperm.mem_iff.mp hfn)
  obtain ⟨pr, htab⟩ := tabulate_exists_ok expInfo parseF allfiles (fun _ => 0) hg2
  have hfind := find_ok_construct parseId parseF config listing subject ident expInfo
    allfiles pr hI hsort hS htab
  have hspec := tabulate_eq_spec expInfo parseF allfiles [] (fun _ => 0) pr
    (fun _ _ => rfl) htab
  have hneall : ∀ fn ∈ allfiles, fn ≠ "" :=
    fun fn hfn => hne fn (hperm.mem_iff.mp hfn)
  have hreal : ∀ r ∈ pr.1, r.File ≠ "" := by
    rw [hspec]
    exact specRealRows_File_ne expInfo parseF allfiles hneall
  have hpermT : ((sortTable (pr.1 ++ missingRows expInfo pr.2)).map Prod.snd).Perm
      (pr.1 ++ missingRows expInfo pr.2) := sortTable_map_snd_perm _
  have hfilter := List.Perm.filter (fun r => r.File != "") hpermT
  rw [List.filter_append] at hfilter
  have h1 : pr.1.filter (fun r => r.File != "") = pr.1 :=
    List.filter_eq_self.mpr (fun r hr => bne_iff_ne.mpr (hreal r hr))
  have h2 : (missingRows expInfo pr.2).filter (fun r => r.File != "") = [] := by
    rw [List.filter_eq_nil]
    intro r hr
    obtain ⟨te, _, _, rfl⟩ := missingRows_mem hr
    simp
  rw [h1, h2, List.append_nil] at hfilter
  have hfiles : pr.1.map Row.File = allfiles.filter (recognized expInfo parseF) := by
    rw [hspec, specRealRows_files]
  refine ⟨sortTable (pr.1 ++ missingRows expInfo pr.2), hfind, ?_, ?_⟩
  · have hmap := hfilter.map Row.File
    rw [hfiles] at hmap
    exact hmap.trans (List.Perm.filter _ hperm)
  · intro fn hfn hunrec r hr hrF
    have hr2 : r ∈ pr.1 ++ missingRows expInfo pr.2 := hpermT.mem_iff.mp hr
    rcases List.mem_append.mp hr2 with hr3 | hr3
    · have : r.File ∈ pr.1.map Row.File := List.mem_map_of_mem Row.File hr3
      rw [hfiles] at this
      have := List.of_mem_filter this
      rw [hrF, hunrec] at this
      cases this
    · obtain ⟨te, _, _, rfl⟩ := missingRows_mem hr3
      simp only at hrF
      exact hne fn hfn hrF.symm

/-- Witness for C2 at the concrete scenario: two T1 and one DTI acquired
against expectations of one T1 and two DTI give exactly one DTI missing-row
whose note is missing(1). -/
theorem C2_missing_row_per_tag_witness :
    (wParseId ("STU_AAA_0001_01" ++ "_01") = Except.ok ⟨"AAA"⟩
      ∧ lookupA wConfig.Sites "AAA" = some wExpInfo
      ∧ (wExpInfo.map Prod.fst).Nodup
      ∧ ("DTI", (⟨2, some 0⟩ : ExportEntry)) ∈ wExpInfo
      ∧ (∀ fn ∈ wListing, fn ≠ "")
      ∧ find_expected_files wParseId wParseF wConfig wListing "STU_AAA_0001_01"
          = Except.ok wTable)
    ∧ (((wTable.map Prod.snd).countP (fun r => r.tag == "DTI" && r.File == "")
        = if (acquiredCount wParseF wListing "DTI" : Int)
            < (⟨2, some 0⟩ : ExportEntry).Count then 1 else 0)
      ∧ (∀ r ∈ wTable.map Prod.snd, r.tag = "DTI" → r.File = "" →
          r.Note = "missing(" ++ toString ((⟨2, some 0⟩ : ExportEntry).Count
            - (acquiredCount wParseF wListing "DTI" : Int)) ++ ")")) :=
  ⟨⟨by decide, by decide, by decide, by decide, by decide, by decide⟩,
    C2_missing_row_per_tag wParseId wParseF wConfig wListing "STU_AAA_0001_01"
      ⟨"AAA"⟩ wExpInfo wTable "DTI" ⟨2, some 0⟩
      (by decide) (by decide) (by decide) (by decide) (by decide) (by decide)⟩

/-- Witness for C3 at the concrete scenario: the real-file rows of the table
are exactly the ordinal-bookmarked rows prescribed by the spec wording, with
the second T1 marked Repeated Scan. -/
theorem C3_bookmark_ordinal_repeated_witness :
    (wParseId ("STU_AAA_0001_01" ++ "_01") = Except.ok ⟨"AAA"⟩
      ∧ lookupA wConfig.Sites "AAA" = some wExpInfo
      ∧ sort_scans wParseF wListing = Except.ok wListing
      ∧ (∀ fn ∈ wListing, fn ≠ "")
      ∧ find_expected_files wParseId wParseF wConfig wListing "STU_AAA_0001_01"
          = Except.ok wTable)
    ∧ ((wTable.map Prod.snd).filter (fun r => r.File != "")).Perm
        (specRealRows wExpInfo wParseF [] wListing) :=
  ⟨⟨by decide, by decide, by decide, by decide, by decide⟩,
    C3_bookmark_ordinal_repeated wParseId wParseF wConfig wListing "STU_AAA_0001_01"
      ⟨"AAA"⟩ wExpInfo wTable wListing
      (by decide) (by decide) (by decide) (by decide) (by decide)⟩

/-- Witness for C4 at the concrete scenario: the untracked XX scan is dropped
silently while every recognized file appears exactly once. -/
theorem C4_unrecognized_files_dropped_witness :
    (wParseId ("STU_AAA_0001_01" ++ "_01") = Except.ok ⟨"AAA"⟩
      ∧ lookupA wConfig.Sites "AAA" = some wExpInfo
      ∧ (∀ fn ∈ wListing, ∃ p, wParseF fn = Except.ok p)
      ∧ (∀ fn ∈ wListing, fn ≠ ""))
    ∧ (∃ table, find_expected_files wParseId wParseF wConfig wListing "STU_AAA_0001_01"
          = Except.ok table ∧
        (((table.map Prod.snd).filter (fun r => r.File != "")).map Row.File).Perm
          (wListing.filter (recognized wExpInfo wParseF)) ∧
        (∀ fn ∈ wListing, recognized wExpInfo wParseF fn = false →
          ∀ r ∈ table.map Prod.snd, r.File ≠ fn)) :=
  ⟨⟨by decide, by decide,
    by
      intro fn hfn
      simp only [wListing, List.mem_cons, List.not_mem_nil, or_false] at hfn
      rcases hfn with rfl | rfl | rfl | rfl <;> exact ⟨_, rfl⟩,
    by decide⟩,
    C4_unrecognized_files_dropped wParseId wParseF wConfig wListing "STU_AAA_0001_01"
      ⟨"AAA"⟩ wExpInfo (by decide) (by decide)
      (by
        intro fn hfn
        simp only [wListing, List.mem_cons, List.not_mem_nil, or_false] at hfn
        rcases hfn with rfl | rfl | rfl | rfl <;> exact ⟨_, rfl⟩)
      (by decide)⟩

/-- C7: a filename the naming parser rejects is fatal: find_expected_files
raises a ParseException out of sort_scans instead of returning a table (the
file is never silently dropped from the reconciliation), and the Scan series
constructor get_series likewise raises when some matching file fails to
parse. -/
theorem C7_unparseable_file_fatal
    (parseId : String → Except ParseException Ident)
    (parseF : String → Except ParseException Parsed)
    (config : Config) (listing : List String) (subject : String)
    (ident : Ident) (fn : String) (pe : ParseException)
    (extOf : String → String) (ext_list : List String) (items : List String)
    (fn2 : String) (pe2 : ParseException)
    (hI : parseId (subject ++ "_01") = Except.ok ident)
    (hfn : fn ∈ listing) (hpe : parseF fn = Except.error pe)
    (hfn2 : fn2 ∈ items) (hext : ext_list.contains (extOf fn2) = true)
    (hpe2 : parseF (strReplace fn2 (extOf fn2) "") = Except.error pe2) :
    (∃ e, find_expected_files parseId parseF config listing subject
        = Except.error (QcErr.parseErr e))
    ∧ (∀ table, find_expected_files parseId parseF config listing subject
        ≠ Except.ok table)
    ∧ (∃ m, get_series parseF extOf ext_list items = Except.error m) := by
  obtain ⟨e, he⟩ := find_error_parse parseId parseF config listing subject ident hI hfn hpe
  refine ⟨⟨e, he⟩, ?_, ?_⟩
  · intro table hok
    rw [he] at hok
    exact Except.noConfusion hok
  · have hmem : fn2 ∈ items.filter (fun i => ext_list.contains (extOf i)) :=
      List.mem_filter.mpr ⟨hfn2, hext⟩
    have hbad : fn2 ∈ (items.filter (fun i => ext_list.contains (extOf i))).filter
        (fun i => (parseF (strReplace i (extOf i) "")).toOption.isNone) :=
      List.mem_filter.mpr ⟨hmem, by rw [hpe2]; rfl⟩
    have hnonempty : ¬ ((items.filter (fun i => ext_list.contains (extOf i))).filter
        (fun i => (parseF (strReplace i (extOf i) "")).toOption.isNone)).isEmpty := by
      cases hl : ((items.filter (fun i => ext_list.contains (extOf i))).filter
          (fun i => (parseF (strReplace i (extOf i) "")).toOption.isNone)) with
      | nil => rw [hl] at hbad; cases hbad
      | cons a l => simp [hl, List.isEmpty]
    refine ⟨⟨"File(s) misnamed: " ++ String.intercalate ", "
      ((items.filter (fun i => ext_list.contains (extOf i))).filter
        (fun i => (parseF (strReplace i (extOf i) "")).toOption.isNone))⟩, ?_⟩
    simp only [get_series]
    rw [if_neg (by simpa using hnonempty)]

/-- Witness for C7: a listing containing the unparseable name bad.nii.gz
makes find_expected_files fail with a ParseException and get_series raise for
the same directory entry. -/
theorem C7_unparseable_file_fatal_witness :
    (wParseId ("STU_AAA_0001_01" ++ "_01") = Except.ok ⟨"AAA"⟩
      ∧ "bad.nii.gz" ∈ ["t1a.nii.gz", "bad.nii.gz"]
      ∧ wParseF "bad.nii.gz" = Except.error ⟨"bad filename"⟩
      ∧ "bad.nii.gz" ∈ ["t1a.nii.gz", "bad.nii.gz"]
      ∧ [".nii", ".nii.gz"].contains ((fun _ => ".nii.gz") "bad.nii.gz") = true
      ∧ wParseF (strReplace "bad.nii.gz" ((fun _ => ".nii.gz") "bad.nii.gz") "")
          = Except.error ⟨"bad filename"⟩)
    ∧ ((∃ e, find_expected_files wParseId wParseF wConfig ["t1a.nii.gz", "bad.nii.gz"]
          "STU_AAA_0001_01" = Except.error (QcErr.parseErr e))
      ∧ (∀ table, find_expected_files wParseId wParseF wConfig ["t1a.nii.gz", "bad.nii.gz"]
          "STU_AAA_0001_01" ≠ Except.ok table)
      ∧ (∃ m, get_series wParseF (fun _ => ".nii.gz") [".nii", ".nii.gz"]
          ["t1a.nii.gz", "bad.nii.gz"] = Except.error m)) :=
  ⟨⟨by decide, by decide, by decide, by decide, by decide, by decide⟩,
    C7_unparseable_file_fatal wParseId wParseF wConfig ["t1a.nii.gz", "bad.nii.gz"]
      "STU_AAA_0001_01" ⟨"AAA"⟩ "bad.nii.gz" ⟨"bad filename"⟩
      (fun _ => ".nii.gz") [".nii", ".nii.gz"] ["t1a.nii.gz", "bad.nii.gz"]
      "bad.nii.gz" ⟨"bad filename"⟩
      (by decide) (by decide) (by decide) (by decide) (by decide) (by decide)⟩

theorem filter_isCmd_add_image (reportName image : String) (title : Option String) :
    (add_image reportName image title).filter Event.isCmd = [] := by
  cases title <;> rfl

/-- C9: every per-tag QC handler checks for its expected output artifacts
before running the external tool: when the artifacts are present the phantom
handlers do nothing at all, the subject handlers run no external command
(they only re-emit the report markup), and the ignore handler never does
anything; no handler can fail. -/
theorem C9_handler_idempotent
    (isfile : String → Bool) (exec : Exec)
    (filename outputDir qc_dir reportName : String) :
    (isfile (pathJoin outputDir (nifti_basename filename ++ "_stats.csv")) = true →
      phantom_fmri_qc isfile exec filename outputDir = [])
    ∧ (isfile (pathJoin outputDir (nifti_basename filename ++ "_stats.csv")) = true →
      phantom_dti_qc isfile exec filename outputDir = [])
    ∧ (isfile (pathJoin outputDir (nifti_basename filename ++ "_adni-contrasts.csv")) = true →
      phantom_anat_qc isfile exec filename outputDir = [])
    ∧ (isfile (pathJoin qc_dir (nifti_basename filename ++ ".png")) = true →
      (anat_qc isfile exec filename qc_dir reportName).filter Event.isCmd = [])
    ∧ (isfile (pathJoin qc_dir (nifti_basename filename ++ "_scanlengths.csv")) = true →
      isfile (pathJoin qc_dir (nifti_basename filename) ++ "_stats.csv") = true →
      isfile (pathJoin qc_dir (nifti_basename filename ++ "_raw.png")) = true →
      isfile (pathJoin qc_dir (nifti_basename filename ++ "_sfnr.png")) = true →
      isfile (pathJoin qc_dir (nifti_basename filename ++ "_corr.png")) = true →
      (fmri_qc isfile exec filename qc_dir reportName).filter Event.isCmd = [])
    ∧ (isfile (pathJoin qc_dir (nifti_basename filename) ++ "_stats.csv") = true →
      isfile (pathJoin qc_dir (nifti_basename filename ++ "_spikecount.csv")) = true →
      isfile (pathJoin qc_dir (nifti_basename filename ++ "_b0.png")) = true →
      (dti_qc isfile exec filename qc_dir reportName).filter Event.isCmd = [])
    ∧ applyHandler HKind.ign isfile exec filename qc_dir reportName = [] := by
  refine ⟨?_, ?_, ?_, ?_, ?_, ?_, rfl⟩
  · intro h
    simp [phantom_fmri_qc, h]
  · intro h
    simp [phantom_dti_qc, h]
  · intro h
    simp [phantom_anat_qc, h]
  · intro h
    simp [anat_qc, h, List.filter_append, filter_isCmd_add_image]
  · intro h1 h2 h3 h4 h5
    simp [fmri_qc, h1, h2, h3, h4, h5, List.filter_append, filter_isCmd_add_image]
  · intro h1 h2 h3
    simp [dti_qc, h1, h2, h3, List.filter_append, filter_isCmd_add_image]

/-- Witness for C9: with every artifact reported present, no handler runs an
external command. -/
theorem C9_handler_idempotent_witness :
    ((fun _ => true : String → Bool)
        (pathJoin "out" (nifti_basename "scans/t1a.nii.gz" ++ "_stats.csv")) = true
      ∧ (fun _ => true : String → Bool)
        (pathJoin "out" (nifti_basename "scans/t1a.nii.gz" ++ "_adni-contrasts.csv")) = true
      ∧ (fun _ => true : String → Bool)
        (pathJoin "qcd" (nifti_basename "scans/t1a.nii.gz" ++ ".png")) = true)
    ∧ (phantom_fmri_qc (fun _ => true) (fun _ => (0, "", "")) "scans/t1a.nii.gz" "out" = []
      ∧ phantom_dti_qc (fun _ => true) (fun _ => (0, "", "")) "scans/t1a.nii.gz" "out" = []
      ∧ phantom_anat_qc (fun _ => true) (fun _ => (0, "", "")) "scans/t1a.nii.gz" "out" = []
      ∧ (anat_qc (fun _ => true) (fun _ => (0, "", "")) "scans/t1a.nii.gz" "qcd"
          "rep").filter Event.isCmd = []
      ∧ (fmri_qc (fun _ => true) (fun _ => (0, "", "")) "scans/t1a.nii.gz" "qcd"
          "rep").filter Event.isCmd = []
      ∧ (dti_qc (fun _ => true) (fun _ => (0, "", "")) "scans/t1a.nii.gz" "qcd"
          "rep").filter Event.isCmd = []
      ∧ applyHandler HKind.ign (fun _ => true) (fun _ => (0, "", "")) "scans/t1a.nii.gz"
          "qcd" "rep" = []) := by
  have h := C9_handler_idempotent (fun _ => true) (fun _ => (0, "", ""))
    "scans/t1a.nii.gz" "out" "qcd" "rep"
  exact ⟨⟨rfl, rfl, rfl⟩,
    h.1 rfl, h.2.1 rfl, h.2.2.1 rfl, h.2.2.2.1 rfl,
    h.2.2.2.2.1 rfl rfl rfl rfl rfl, h.2.2.2.2.2.1 rfl rfl rfl, h.2.2.2.2.2.2⟩

/-- C10: when the report file already exists and the rewrite flag is off,
qc_subject returns immediately with no report name: the only effects are the
two define_folder calls, so no reconciliation table is built, no handler is
dispatched and no file is written, removed or executed, whatever the other
inputs are. -/
theorem C10_existing_report_skipped
    (parseId : String → Except ParseException Ident)
    (parseF : String → Except ParseException Parsed)
    (isfile : String → Bool) (exec : Exec) (extOf : String → String)
    (niiListing dcmListing stdListing technotes : List String)
    (config : Config) (scanpath subject : String)
    (hrep : isfile (reportNameOf config subject) = true) :
    qc_subject parseId parseF isfile exec extOf niiListing dcmListing stdListing technotes
      false config scanpath subject
      = ([Event.mkdir config.paths.qc, Event.mkdir (pathJoin config.paths.qc subject)],
        Except.ok none) := by
  simp only [reportNameOf] at hrep
  simp [qc_subject, hrep]

/-- Witness for C10: with the report present on disk the run is a no-op
returning none. -/
theorem C10_existing_report_skipped_witness :
    ((fun _ => true : String → Bool) (reportNameOf wConfig "STU_AAA_0001_01") = true)
    ∧ qc_subject wParseId wParseF (fun _ => true) (fun _ => (0, "", "")) (fun _ => ".nii.gz")
        wListing [] [] [] false wConfig "scans" "STU_AAA_0001_01"
      = ([Event.mkdir wConfig.paths.qc, Event.mkdir (pathJoin wConfig.paths.qc "STU_AAA_0001_01")],
        Except.ok none) :=
  ⟨rfl, C10_existing_report_skipped wParseId wParseF (fun _ => true) (fun _ => (0, "", ""))
    (fun _ => ".nii.gz") wListing [] [] [] wConfig "scans" "STU_AAA_0001_01" rfl⟩

theorem filter_isDispatch_run (exec : Exec) (c : String) :
    (run exec c).filter Event.isDispatch = [] := by
  simp only [run]
  split <;> rfl

theorem filter_isDispatch_add_image (rn img : String) (t : Option String) :
    (add_image rn img t).filter Event.isDispatch = [] := by
  cases t <;> rfl

theorem filter_isDispatch_ifRun (c : Bool) (l : List Event)
    (hl : l.filter Event.isDispatch = []) :
    (if c then ([] : List Event) else l).filter Event.isDispatch = [] := by
  cases c <;> simp [hl]

theorem filter_isDispatch_applyHandler (hk : HKind) (isfile : String → Bool) (exec : Exec)
    (fname qc_dir rn : String) :
    (applyHandler hk isfile exec fname qc_dir rn).filter Event.isDispatch = [] := by
  cases hk with
  | anat =>
    simp only [applyHandler, anat_qc, List.filter_append]
    rw [filter_isDispatch_ifRun _ _ (by simp [slicer, filter_isDispatch_run]),
      filter_isDispatch_add_image]
    rfl
  | fmri =>
    simp only [applyHandler, fmri_qc, List.filter_append]
    rw [filter_isDispatch_ifRun _ _ (by simp [dm_utils_run, filter_isDispatch_run]),
      filter_isDispatch_ifRun _ _ (by simp [dm_utils_run, filter_isDispatch_run]),
      filter_isDispatch_ifRun _ _ (by simp [slicer, filter_isDispatch_run]),
      filter_isDispatch_ifRun _ _ (by simp [slicer, filter_isDispatch_run]),
      filter_isDispatch_ifRun _ _ (by simp [slicer, filter_isDispatch_run]),
      filter_isDispatch_add_image, filter_isDispatch_add_image,
      filter_isDispatch_add_image]
    rfl
  | dti =>
    simp only [applyHandler, dti_qc, List.filter_append]
    rw [filter_isDispatch_ifRun _ _ (by simp [dm_utils_run, filter_isDispatch_run]),
      filter_isDispatch_ifRun _ _ (by simp [dm_utils_run, filter_isDispatch_run]),
      filter_isDispatch_ifRun _ _ (by simp [slicer, filter_isDispatch_run]),
      filter_isDispatch_add_image, filter_isDispatch_add_image]
    rfl
  | ign => rfl

theorem filter_isDispatch_write_table (rn : String) (table : List (Nat × Row)) :
    (write_table rn table).filter Event.isDispatch = [] := by
  rw [List.filter_eq_nil]
  intro e he
  simp only [write_table, List.mem_append] at he
  rcases he with (he | he) | he
  · rw [List.mem_singleton] at he
    subst he
    simp [Event.isDispatch]
  · obtain ⟨i, _, rfl⟩ := List.mem_map.mp he
    simp [Event.isDispatch]
  · rw [List.mem_singleton] at he
    subst he
    simp [Event.isDispatch]

theorem qcLoop_ok (parseF : String → Except ParseException Parsed)
    (isfile : String → Bool) (exec : Exec) (extOf : String → String)
    (rows : List Row) (scanpath rn qd hd : String)
    (hparse : ∀ r ∈ rows, r.File ≠ "" → ∃ p, parseF (pathJoin scanpath r.File) = Except.ok p)
    (hhdr : ∀ r ∈ rows, r.File ≠ "" →
      add_header_qc extOf (pathJoin scanpath r.File) rn hd = Except.ok []) :
    ∀ idxs : List Nat, (∀ i ∈ idxs, i < rows.length) →
      (qcLoop parseF isfile exec extOf (sortTable rows) scanpath rn qd hd idxs).2
          = Except.ok ()
      ∧ (qcLoop parseF isfile exec extOf (sortTable rows) scanpath rn qd hd idxs).1.filter
            Event.isDispatch
          = (idxs.map (fun i => dispOf parseF scanpath (rows.getD i default))).flatten := by
  intro idxs
  induction idxs with
  | nil => exact fun _ => ⟨rfl, rfl⟩
  | cons i rest ih =>
    intro hvalid
    have hi : i < rows.length := hvalid i (by simp)
    obtain ⟨h2, h1⟩ := ih (fun j hj => hvalid j (by simp [hj]))
    have hloc : locRow (sortTable rows) i = rows[i] := locRow_sortTable rows i hi
    have hgetD : rows.getD i default = rows[i] := List.getD_eq_getElem rows default hi
    by_cases hF : (rows[i]).File = ""
    · constructor
      · simp only [qcLoop, hloc]
        rw [if_pos hF]
        exact h2
      · simp only [qcLoop, hloc]
        rw [if_pos hF, h1]
        have hd0 : dispOf parseF scanpath (rows.getD i default) = [] := by
          rw [hgetD]
          simp [dispOf, hF]
        rw [List.map_cons, List.flatten_cons, hd0]
        rfl
    · obtain ⟨p, hp⟩ := hparse (rows[i]) (List.getElem_mem hi) hF
      have hhdri := hhdr (rows[i]) (List.getElem_mem hi) hF
      cases hlook : lookupA HANDLERS p.tag with
      | none =>
        constructor
        · simp only [qcLoop, hloc]
          rw [if_neg hF]
          simp only [hp, hlook]
          exact h2
        · simp only [qcLoop, hloc]
          rw [if_neg hF]
          simp only [hp, hlook]
          rw [List.filter_append, h1]
          have hd0 : dispOf parseF scanpath (rows.getD i default) = [] := by
            rw [hgetD]
            simp [dispOf, hF, hp, hlook]
          rw [List.map_cons, List.flatten_cons, hd0]
          simp [Event.isDispatch]
      | some hk =>
        constructor
        · simp only [qcLoop, hloc]
          rw [if_neg hF]
          simp only [hp, hlook, hhdri]
          exact h2
        · simp only [qcLoop, hloc]
          rw [if_neg hF]
          simp only [hp, hlook, hhdri]
          have hd0 : dispOf parseF scanpath (rows.getD i default)
              = [Event.dispatch p.tag (pathJoin scanpath (rows[i]).File)] := by
            rw [hgetD]
            simp [dispOf, hF, hp, hlook]
          simp only [List.filter_append, List.append_assoc, List.append_nil]
          rw [filter_isDispatch_applyHandler, h1, List.map_cons, List.flatten_cons, hd0]
          simp [Event.isDispatch]

theorem map_range_getD {α β : Type} [Inhabited α] (l : List α) (f : α → β) :
    (List.range l.length).map (fun i => f (l.getD i default)) = l.map f := by
  apply List.ext_get
  · simp
  · intro n h1 h2
    have hn : n < l.length := by simpa using h2
    simp only [List.get_eq_getElem, List.getElem_map, List.getElem_range]
    rw [List.getD_eq_getElem l default hn]

theorem filter_isDispatch_technotes (rn : String) (c1 c2 : Bool) :
    ((if c1 then
        (if c2 then [Event.write rn "<p>Tech Notes not found</p>"]
         else [Event.write rn "<a technotes>Click Here to open Tech Notes</a>"])
      else []).filter Event.isDispatch) = [] := by
  cases c1 <;> cases c2 <;> rfl

theorem qc_subject_characterization
    (parseId : String → Except ParseException Ident)
    (parseF : String → Except ParseException Parsed)
    (isfile : String → Bool) (exec : Exec) (extOf : String → String)
    (niiListing dcmListing stdListing technotes : List String)
    (rewrite : Bool) (config : Config) (scanpath subject : String) (rows : List Row)
    (hrep : isfile (reportNameOf config subject) = false)
    (hhd : isfile (headerDiffOf config subject) = true)
    (hfind : find_expected_files parseId parseF config niiListing subject
      = Except.ok (sortTable rows))
    (hparse : ∀ r ∈ rows, r.File ≠ "" →
      ∃ p, parseF (pathJoin scanpath r.File) = Except.ok p)
    (hhdr : ∀ r ∈ rows, r.File ≠ "" →
      add_header_qc extOf (pathJoin scanpath r.File) (reportNameOf config subject)
        (headerDiffOf config subject) = Except.ok []) :
    (qc_subject parseId parseF isfile exec extOf niiListing dcmListing stdListing technotes
        rewrite config scanpath subject).2 = Except.ok (some (reportNameOf config subject))
    ∧ (qc_subject parseId parseF isfile exec extOf niiListing dcmListing stdListing technotes
        rewrite config scanpath subject).1.filter Event.isDispatch
        = (rows.map (dispOf parseF scanpath)).flatten := by
  simp only [reportNameOf, headerDiffOf] at hrep hhd hhdr
  have hlen : (sortTable rows).length = rows.length := sortTable_length rows
  obtain ⟨hl2, hl1⟩ := qcLoop_ok parseF isfile exec extOf rows scanpath
    (pathJoin (pathJoin config.paths.qc subject) ("qc_" ++ subject ++ ".html"))
    (pathJoin config.paths.qc subject)
    (pathJoin (pathJoin config.paths.qc subject) "header-diff.log") hparse hhdr
    (List.range (sortTable rows).length)
    (by
      intro j hj
      rw [List.mem_range, hlen] at hj
      exact hj)
  rcases hq : qcLoop parseF isfile exec extOf (sortTable rows) scanpath
      (pathJoin (pathJoin config.paths.qc subject) ("qc_" ++ subject ++ ".html"))
      (pathJoin config.paths.qc subject)
      (pathJoin (pathJoin config.paths.qc subject) "header-diff.log")
      (List.range (sortTable rows).length) with ⟨evL, res⟩
  rw [hq] at hl2 hl1
  simp only at hl2 hl1
  subst hl2
  have hdisp : evL.filter Event.isDispatch = (rows.map (dispOf parseF scanpath)).flatten := by
    rw [hl1]
    have : (List.range (sortTable rows).length).map
        (fun i => dispOf parseF scanpath (rows.getD i default))
        = (List.range rows.length).map
          (fun i => dispOf parseF scanpath (rows.getD i default)) := by
      rw [hlen]
    rw [this, map_range_getD rows (dispOf parseF scanpath)]
  simp only [qc_subject, hrep, hfind, hhd, Bool.false_and, Bool.and_false, if_false,
    Bool.false_eq_true, if_true, hq]
  constructor
  · rfl
  · simp only [List.filter_append, filter_isDispatch_write_table,
      filter_isDispatch_technotes, hdisp]
    simp [Event.isDispatch]

theorem qc_subject_find_error
    (parseId : String → Except ParseException Ident)
    (parseF : String → Except ParseException Parsed)
    (isfile : String → Bool) (exec : Exec) (extOf : String → String)
    (niiListing dcmListing stdListing technotes : List String)
    (rewrite : Bool) (config : Config) (scanpath subject : String) (e : QcErr)
    (hrep : isfile (reportNameOf config subject) = false)
    (hfind : find_expected_files parseId parseF config niiListing subject
      = Except.error e) :
    qc_subject parseId parseF isfile exec extOf niiListing dcmListing stdListing technotes
      rewrite config scanpath subject
      = ([Event.mkdir config.paths.qc, Event.mkdir (pathJoin config.paths.qc subject),
          Event.openFile (reportNameOf config subject),
          Event.write (reportNameOf config subject)
            ("<HTML><TITLE>" ++ subject ++ " qc</TITLE>"),
          Event.write (reportNameOf config subject)
            "<head><style> body img table th td </style></head>",
          Event.write (reportNameOf config subject)
            ("<h1> QC report for " ++ subject ++ " <h1/>")],
        Except.error e) := by
  simp only [reportNameOf] at hrep ⊢
  simp [qc_subject, hrep, hfind]

/-- C6 corrected: when the site of the subject is absent from the
configuration Sites block, manifest construction fails with an uncaught
KeyError (the code defines no ConfigError) and the failure is fatal for the
subject: qc_subject propagates the error and never dispatches a handler.
However a partial report has already been produced: the report file was
opened and the HTML header written before find_expected_files ran. -/
theorem C6_amended_site_missing
    (parseId : String → Except ParseException Ident)
    (parseF : String → Except ParseException Parsed)
    (isfile : String → Bool) (exec : Exec) (extOf : String → String)
    (niiListing dcmListing stdListing technotes : List String)
    (rewrite : Bool) (config : Config) (scanpath subject : String) (ident : Ident)
    (hI : parseId (subject ++ "_01") = Except.ok ident)
    (hS : lookupA config.Sites ident.site = none)
    (hg : ∀ fn ∈ niiListing, ∃ p, parseF fn = Except.ok p)
    (hrep : isfile (reportNameOf config subject) = false) :
    (qc_subject parseId parseF isfile exec extOf niiListing dcmListing stdListing technotes
        rewrite config scanpath subject).2 = Except.error (QcErr.keyError ident.site)
    ∧ Event.openFile (reportNameOf config subject)
        ∈ (qc_subject parseId parseF isfile exec extOf niiListing dcmListing stdListing
            technotes rewrite config scanpath subject).1
    ∧ (qc_subject parseId parseF isfile exec extOf niiListing dcmListing stdListing
        technotes rewrite config scanpath subject).1.filter Event.isWrite ≠ []
    ∧ (qc_subject parseId parseF isfile exec extOf niiListing dcmListing stdListing
        technotes rewrite config scanpath subject).1.filter Event.isDispatch = [] := by
  obtain ⟨allfiles, hsort⟩ := sort_scans_exists_ok parseF niiListing hg
  have hfind := find_error_keyError parseId parseF config niiListing subject ident
    allfiles hI hsort hS
  rw [qc_subject_find_error parseId parseF isfile exec extOf niiListing dcmListing
    stdListing technotes rewrite config scanpath subject _ hrep hfind]
  refine ⟨rfl, by simp, by simp [Event.isWrite], by simp [Event.isDispatch]⟩

/-- Counterexample for C6 as stated: with site BBB missing from the
configuration the run aborts with a KeyError, but contrary to the claim a
partial report IS written for that subject: the trace contains the openFile
of the report and nonempty report writes performed before manifest
construction failed. -/
theorem C6_counterexample_partial_report_written :
    (qc_subject cParseId wParseF (fun _ => false) (fun _ => (0, "", ""))
        (fun _ => ".nii.gz") wListing [] [] [] false wConfig "scans"
        "STU_BBB_0002_01").2 = Except.error (QcErr.keyError "BBB")
    ∧ Event.openFile (reportNameOf wConfig "STU_BBB_0002_01")
        ∈ (qc_subject cParseId wParseF (fun _ => false) (fun _ => (0, "", ""))
            (fun _ => ".nii.gz") wListing [] [] [] false wConfig "scans"
            "STU_BBB_0002_01").1
    ∧ (qc_subject cParseId wParseF (fun _ => false) (fun _ => (0, "", ""))
        (fun _ => ".nii.gz") wListing [] [] [] false wConfig "scans"
        "STU_BBB_0002_01").1.filter Event.isWrite ≠ [] := by
  refine ⟨by decide, by decide, by decide⟩

/-- Witness for the amended C6 at the concrete scenario. -/
theorem C6_amended_site_missing_witness :
    (cParseId ("STU_BBB_0002_01" ++ "_01") = Except.ok ⟨"BBB"⟩
      ∧ lookupA wConfig.Sites "BBB" = none
      ∧ (fun _ => false : String → Bool) (reportNameOf wConfig "STU_BBB_0002_01") = false)
    ∧ ((qc_subject cParseId wParseF (fun _ => false) (fun _ => (0, "", ""))
          (fun _ => ".nii.gz") wListing [] [] [] false wConfig "scans"
          "STU_BBB_0002_01").2 = Except.error (QcErr.keyError "BBB")
      ∧ Event.openFile (reportNameOf wConfig "STU_BBB_0002_01")
          ∈ (qc_subject cParseId wParseF (fun _ => false) (fun _ => (0, "", ""))
              (fun _ => ".nii.gz") wListing [] [] [] false wConfig "scans"
              "STU_BBB_0002_01").1
      ∧ (qc_subject cParseId wParseF (fun _ => false) (fun _ => (0, "", ""))
          (fun _ => ".nii.gz") wListing [] [] [] false wConfig "scans"
          "STU_BBB_0002_01").1.filter Event.isWrite ≠ []
      ∧ (qc_subject cParseId wParseF (fun _ => false) (fun _ => (0, "", ""))
          (fun _ => ".nii.gz") wListing [] [] [] false wConfig "scans"
          "STU_BBB_0002_01").1.filter Event.isDispatch = []) :=
  ⟨⟨by decide, by decide, rfl⟩,
    C6_amended_site_missing cParseId wParseF (fun _ => false) (fun _ => (0, "", ""))
      (fun _ => ".nii.gz") wListing [] [] [] false wConfig "scans" "STU_BBB_0002_01"
      ⟨"BBB"⟩ (by decide) (by decide)
      (by
        intro fn hfn
        simp only [wListing, List.mem_cons, List.not_mem_nil, or_false] at hfn
        rcases hfn with rfl | rfl | rfl | rfl <;> exact ⟨_, rfl⟩)
      rfl⟩

/-- Counterexample for C5 as stated: on the witness scenario the sorted table
lists the DTI file first (order key 0 before order key 1), yet the loop
dispatches with loc by index label, so the files are handed to handlers in
acquisition order t1a, t1b, dti: the dispatch sequence differs from the
non-empty filenames of the sorted table. -/
theorem C5_counterexample_dispatch_not_sorted :
    find_expected_files wParseId wParseF wConfig wListing "STU_AAA_0001_01"
      = Except.ok wTable
    ∧ nonEmptyFiles wTable = ["dti.nii.gz", "t1a.nii.gz", "t1b.nii.gz"]
    ∧ dispatchedFiles (qc_subject wParseId wParseF c5Isfile (fun _ => (0, "", ""))
        (fun _ => ".nii.gz") wListing [] [] [] false wConfig "scans"
        "STU_AAA_0001_01").1
      = ["scans/t1a.nii.gz", "scans/t1b.nii.gz", "scans/dti.nii.gz"]
    ∧ dispatchedFiles (qc_subject wParseId wParseF c5Isfile (fun _ => (0, "", ""))
        (fun _ => ".nii.gz") wListing [] [] [] false wConfig "scans"
        "STU_AAA_0001_01").1
      ≠ (nonEmptyFiles wTable).map (pathJoin "scans") := by
  refine ⟨by decide, by decide, by decide, by decide⟩

/-- C5 amended: qc_subject dispatches rows in the original emission order of
the table (its pandas index labels: acquisition order for real files,
missing-rows last), not in the sorted positional order, because the loop
fetches each row with loc by label; a missing-row (empty File) is never
dispatched, and among real rows exactly those whose parsed tag has a handler
are dispatched, each contributing its joined path once. -/
theorem C5_amended_dispatch_in_label_order
    (parseId : String → Except ParseException Ident)
    (parseF : String → Except ParseException Parsed)
    (isfile : String → Bool) (exec : Exec) (extOf : String → String)
    (niiListing dcmListing stdListing technotes : List String)
    (rewrite : Bool) (config : Config) (scanpath subject : String) (rows : List Row)
    (hrep : isfile (reportNameOf config subject) = false)
    (hhd : isfile (headerDiffOf config subject) = true)
    (hfind : find_expected_files parseId parseF config niiListing subject
      = Except.ok (sortTable rows))
    (hparse : ∀ r ∈ rows, r.File ≠ "" →
      ∃ p, parseF (pathJoin scanpath r.File) = Except.ok p)
    (hhdr : ∀ r ∈ rows, r.File ≠ "" →
      add_header_qc extOf (pathJoin scanpath r.File) (reportNameOf config subject)
        (headerDiffOf config subject) = Except.ok []) :
    (qc_subject parseId parseF isfile exec extOf niiListing dcmListing stdListing technotes
        rewrite config scanpath subject).1.filter Event.isDispatch
      = (rows.map (dispOf parseF scanpath)).flatten
    ∧ (∀ r : Row, r.File = "" → dispOf parseF scanpath r = [])
    ∧ (qc_subject parseId parseF isfile exec extOf niiListing dcmListing stdListing
        technotes rewrite config scanpath subject).2
      = Except.ok (some (reportNameOf config subject)) := by
  obtain ⟨h2, h1⟩ := qc_subject_characterization parseId parseF isfile exec extOf
    niiListing dcmListing stdListing technotes rewrite config scanpath subject rows
    hrep hhd hfind hparse hhdr
  exact ⟨h1, fun r hr => by simp [dispOf, hr], h2⟩

/-- Witness for the amended C5 on the witness scenario. -/
theorem C5_amended_dispatch_in_label_order_witness :
    (c5Isfile (reportNameOf wConfig "STU_AAA_0001_01") = false
      ∧ c5Isfile (headerDiffOf wConfig "STU_AAA_0001_01") = true
      ∧ find_expected_files wParseId wParseF wConfig wListing "STU_AAA_0001_01"
          = Except.ok (sortTable wRows))
    ∧ ((qc_subject wParseId wParseF c5Isfile (fun _ => (0, "", "")) (fun _ => ".nii.gz")
          wListing [] [] [] false wConfig "scans" "STU_AAA_0001_01").1.filter
          Event.isDispatch
        = (wRows.map (dispOf wParseF "scans")).flatten
      ∧ (∀ r : Row, r.File = "" → dispOf wParseF "scans" r = [])
      ∧ (qc_subject wParseId wParseF c5Isfile (fun _ => (0, "", "")) (fun _ => ".nii.gz")
          wListing [] [] [] false wConfig "scans" "STU_AAA_0001_01").2
        = Except.ok (some (reportNameOf wConfig "STU_AAA_0001_01"))) :=
  ⟨⟨by decide, by decide, by decide⟩,
    C5_amended_dispatch_in_label_order wParseId wParseF c5Isfile (fun _ => (0, "", ""))
      (fun _ => ".nii.gz") wListing [] [] [] false wConfig "scans" "STU_AAA_0001_01"
      wRows (by decide) (by decide) (by decide)
      (by
        intro r hr hne
        simp only [wRows, List.mem_cons, List.not_mem_nil, or_false] at hr
        rcases hr with rfl | rfl | rfl | rfl
        · exact ⟨_, rfl⟩
        · exact ⟨_, rfl⟩
        · exact ⟨_, rfl⟩
        · exact absurd rfl hne)
      (by decide)⟩

/-- C8: a nonzero exit of an external tool is logged with the captured stdout
and stderr but aborts nothing: run raises no error whatever the return code,
and for a run that can complete, the report is produced and the dispatch
sequence is identical for every subprocess oracle, so rows after a failing
tool are still processed and the subject-level report is still written. -/
theorem C8_tool_failure_logged_and_nonfatal
    (parseId : String → Except ParseException Ident)
    (parseF : String → Except ParseException Parsed)
    (isfile : String → Bool) (extOf : String → String)
    (niiListing dcmListing stdListing technotes : List String)
    (rewrite : Bool) (config : Config) (scanpath subject : String) (rows : List Row)
    (hrep : isfile (reportNameOf config subject) = false)
    (hhd : isfile (headerDiffOf config subject) = true)
    (hfind : find_expected_files parseId parseF config niiListing subject
      = Except.ok (sortTable rows))
    (hparse : ∀ r ∈ rows, r.File ≠ "" →
      ∃ p, parseF (pathJoin scanpath r.File) = Except.ok p)
    (hhdr : ∀ r ∈ rows, r.File ≠ "" →
      add_header_qc extOf (pathJoin scanpath r.File) (reportNameOf config subject)
        (headerDiffOf config subject) = Except.ok []) :
    (∀ (exec : Exec) (c : String), (exec c).1 ≠ 0 →
      run exec c = [Event.cmd c, Event.logErr (exec c).1 (exec c).2.1 (exec c).2.2])
    ∧ ∀ exec : Exec,
        (qc_subject parseId parseF isfile exec extOf niiListing dcmListing stdListing
            technotes rewrite config scanpath subject).2
          = Except.ok (some (reportNameOf config subject))
        ∧ (qc_subject parseId parseF isfile exec extOf niiListing dcmListing stdListing
            technotes rewrite config scanpath subject).1.filter Event.isDispatch
          = (rows.map (dispOf parseF scanpath)).flatten := by
  constructor
  · intro exec c hc
    simp [run, hc]
  · intro exec
    exact qc_subject_characterization parseId parseF isfile exec extOf niiListing
      dcmListing stdListing technotes rewrite config scanpath subject rows
      hrep hhd hfind hparse hhdr

/-- Witness for C8: with a subprocess oracle that fails every command with
exit code 1, the failure is logged with its stdout and stderr, every row is
still dispatched and the report is still produced. -/
theorem C8_tool_failure_logged_and_nonfatal_witness :
    (c5Isfile (reportNameOf wConfig "STU_AAA_0001_01") = false
      ∧ c5Isfile (headerDiffOf wConfig "STU_AAA_0001_01") = true
      ∧ find_expected_files wParseId wParseF wConfig wListing "STU_AAA_0001_01"
          = Except.ok (sortTable wRows))
    ∧ (run (fun _ => (1, "out", "err")) "slicer x"
        = [Event.cmd "slicer x", Event.logErr 1 "out" "err"]
      ∧ (qc_subject wParseId wParseF c5Isfile (fun _ => (1, "out", "err"))
          (fun _ => ".nii.gz") wListing [] [] [] false wConfig "scans"
          "STU_AAA_0001_01").2
        = Except.ok (some (reportNameOf wConfig "STU_AAA_0001_01"))
      ∧ (qc_subject wParseId wParseF c5Isfile (fun _ => (1, "out", "err"))
          (fun _ => ".nii.gz") wListing [] [] [] false wConfig "scans"
          "STU_AAA_0001_01").1.filter Event.isDispatch
        = (wRows.map (dispOf wParseF "scans")).flatten) :=
  ⟨⟨by decide, by decide, by decide⟩, by
    have h := C8_tool_failure_logged_and_nonfatal wParseId wParseF c5Isfile
      (fun _ => ".nii.gz") wListing [] [] [] false wConfig "scans" "STU_AAA_0001_01"
      wRows (by decide) (by decide) (by decide)
      (by
        intro r hr hne
        simp only [wRows, List.mem_cons, List.not_mem_nil, or_false] at hr
        rcases hr with rfl | rfl | rfl | rfl
        · exact ⟨_, rfl⟩
        · exact ⟨_, rfl⟩
        · exact ⟨_, rfl⟩
        · exact absurd rfl hne)
      (by decide)
    exact ⟨h.1 (fun _ => (1, "out", "err")) "slicer x" (by decide),
      (h.2 (fun _ => (1, "out", "err"))).1, (h.2 (fun _ => (1, "out", "err"))).2⟩⟩
